import Mathlib

/-!
Verification development for the trade-finance LC backend
(`app/agents/sanctions_agent.py`, `app/utils/sanctions_data.py`,
`app/utils/vapi_lc_assistant.py`, `app/agents/voice_lc_agent.py`).

The Python code is shallowly embedded: dictionaries become association
lists on `String` keys (insertion-ordered, like Python dicts), `None`
becomes `Option`/an explicit null constructor, string `lower`/`strip`
become character-list operations, and the compliance check becomes a
composition of pure step functions over an explicit result state.  The
wall-clock timestamp that `datetime.now().isoformat()` writes into the
result is made an explicit `now : String` argument.
-/

set_option autoImplicit false

namespace TradeFast

/-! ## Generic string-keyed dictionaries (Python `dict` as assoc list) -/

/-- Python `d.get(k)` / `d[k]`: first entry with the given key. -/
def dGet {α : Type} (k : String) : List (String × α) → Option α
  | [] => none
  | p :: rest => if p.1 = k then some p.2 else dGet k rest

/-- Python `d[k] = v`: replace the (first) existing entry in place, else
append at the end, as insertion-ordered dicts do. -/
def dSet {α : Type} (k : String) (v : α) : List (String × α) → List (String × α)
  | [] => [(k, v)]
  | p :: rest => if p.1 = k then (k, v) :: rest else p :: dSet k v rest

/-! ## Python string primitives used by the sources -/

/-- Python `s.lower()` (ASCII case folding suffices for the data used). -/
def pyLower (s : String) : String :=
  String.mk (s.toList.map Char.toLower)

/-- Python `s.strip()`: drop whitespace from both ends. -/
def pyStrip (s : String) : String :=
  String.mk (((s.toList.dropWhile Char.isWhitespace).reverse.dropWhile Char.isWhitespace).reverse)

/-- `s.lower().strip()`, the normalization applied to countries and ports. -/
def pyLowerStrip (s : String) : String := pyStrip (pyLower s)

/-- `startsL needle hay`: `hay` begins with `needle`. -/
def startsL : List Char → List Char → Bool
  | [], _ => true
  | _ :: _, [] => false
  | a :: as, b :: bs => (a = b) && startsL as bs

/-- `subL needle hay`: `needle` occurs as a contiguous run in `hay`. -/
def subL (needle : List Char) : List Char → Bool
  | [] => needle.isEmpty
  | b :: bs => startsL needle (b :: bs) || subL needle bs

/-- Python `needle in hay` on strings (substring containment). -/
def strContains (hay needle : String) : Bool :=
  subL needle.toList hay.toList

/-! ## Reference data (`app/utils/sanctions_data.py`) -/

/-- The four risk levels; the source stores them as the strings
`"LOW" | "MEDIUM" | "HIGH" | "CRITICAL"`. -/
inductive Risk where
  | LOW
  | MEDIUM
  | HIGH
  | CRITICAL
  deriving DecidableEq, Repr

/-- Numeric severity used only to state ordering properties. -/
def Risk.toNat : Risk → Nat
  | .LOW => 0
  | .MEDIUM => 1
  | .HIGH => 2
  | .CRITICAL => 3

/-- `riskLe a b`: risk level `a` is at most `b` (LOW < MEDIUM < HIGH < CRITICAL). -/
def riskLe (a b : Risk) : Prop := a.toNat ≤ b.toNat

instance (a b : Risk) : Decidable (riskLe a b) := by
  unfold riskLe; infer_instance

/-- One value of the `SANCTIONED_COUNTRIES` dict. -/
structure SanctionEntry where
  name : String
  status : String
  risk_level : Risk
  sanctioning_authorities : List String
  reason : String
  blocked : Bool
  details : String
  sources : List String
  deriving DecidableEq, Repr

/-- One value of the `HIGH_RISK_PORTS` dict. -/
structure PortEntry where
  country : String
  risk : Risk
  reason : String
  deriving DecidableEq, Repr

/-- `SANCTIONED_COUNTRIES` from `app/utils/sanctions_data.py`, key for key. -/
def SANCTIONED_COUNTRIES : List (String × SanctionEntry) :=
  [ ("iran",
     { name := "Iran", status := "COMPREHENSIVE_SANCTIONS", risk_level := Risk.CRITICAL,
       sanctioning_authorities := ["OFAC", "UN", "EU"],
       reason := "Comprehensive US sanctions under Executive Orders 13846, 13902",
       blocked := true,
       details := "Comprehensive trade embargo. Virtually all transactions prohibited.",
       sources := ["https://ofac.treasury.gov/sanctions-programs-and-country-information/iran-sanctions",
                   "https://www.un.org/securitycouncil/sanctions/2231"] }),
    ("north korea",
     { name := "North Korea", status := "COMPREHENSIVE_SANCTIONS", risk_level := Risk.CRITICAL,
       sanctioning_authorities := ["OFAC", "UN", "EU"],
       reason := "Comprehensive sanctions under Executive Order 13810",
       blocked := true,
       details := "Complete trade embargo. All transactions prohibited.",
       sources := ["https://ofac.treasury.gov/sanctions-programs-and-country-information/north-korea-sanctions"] }),
    ("syria",
     { name := "Syria", status := "COMPREHENSIVE_SANCTIONS", risk_level := Risk.CRITICAL,
       sanctioning_authorities := ["OFAC", "UN", "EU"],
       reason := "Syria sanctions under Executive Order 13894",
       blocked := true,
       details := "Comprehensive sanctions due to Syrian government actions.",
       sources := ["https://ofac.treasury.gov/sanctions-programs-and-country-information/syria-sanctions"] }),
    ("cuba",
     { name := "Cuba", status := "COMPREHENSIVE_SANCTIONS", risk_level := Risk.CRITICAL,
       sanctioning_authorities := ["OFAC"],
       reason := "Cuban Assets Control Regulations",
       blocked := true,
       details := "US embargo on Cuba. Comprehensive trade restrictions.",
       sources := ["https://ofac.treasury.gov/sanctions-programs-and-country-information/cuba-sanctions"] }),
    ("russia",
     { name := "Russia", status := "SECTORAL_SANCTIONS", risk_level := Risk.HIGH,
       sanctioning_authorities := ["OFAC", "EU"],
       reason := "Sectoral sanctions related to Ukraine invasion (2022)",
       blocked := false,
       details := "Sectoral sanctions targeting financial, energy, and defense sectors. Not comprehensive embargo.",
       sources := ["https://ofac.treasury.gov/sanctions-programs-and-country-information/ukraine-russia-related-sanctions"] }),
    ("belarus",
     { name := "Belarus", status := "SECTORAL_SANCTIONS", risk_level := Risk.HIGH,
       sanctioning_authorities := ["OFAC", "EU"],
       reason := "Sanctions related to support for Russia's invasion of Ukraine",
       blocked := false,
       details := "Targeted sanctions on specific sectors and entities.",
       sources := ["https://ofac.treasury.gov/sanctions-programs-and-country-information/belarus-sanctions"] }),
    ("venezuela",
     { name := "Venezuela", status := "SECTORAL_SANCTIONS", risk_level := Risk.HIGH,
       sanctioning_authorities := ["OFAC"],
       reason := "Sanctions on Venezuelan government and oil sector",
       blocked := false,
       details := "Targeted sanctions on government officials and petroleum sector.",
       sources := ["https://ofac.treasury.gov/sanctions-programs-and-country-information/venezuela-related-sanctions"] }),
    ("myanmar",
     { name := "Myanmar (Burma)", status := "SECTORAL_SANCTIONS", risk_level := Risk.HIGH,
       sanctioning_authorities := ["OFAC", "EU"],
       reason := "Military coup and human rights violations",
       blocked := false,
       details := "Targeted sanctions on military regime and associates.",
       sources := ["https://ofac.treasury.gov/sanctions-programs-and-country-information/burma-sanctions"] }),
    ("burma",
     { name := "Myanmar (Burma)", status := "SECTORAL_SANCTIONS", risk_level := Risk.HIGH,
       sanctioning_authorities := ["OFAC", "EU"],
       reason := "Military coup and human rights violations",
       blocked := false,
       details := "Targeted sanctions on military regime and associates.",
       sources := ["https://ofac.treasury.gov/sanctions-programs-and-country-information/burma-sanctions"] }),
    ("crimea",
     { name := "Crimea Region of Ukraine", status := "REGIONAL_SANCTIONS", risk_level := Risk.CRITICAL,
       sanctioning_authorities := ["OFAC", "EU"],
       reason := "Crimea-related sanctions",
       blocked := true,
       details := "Comprehensive sanctions on Crimea region. New investment prohibited.",
       sources := ["https://ofac.treasury.gov/sanctions-programs-and-country-information/ukraine-russia-related-sanctions"] }),
    ("donetsk",
     { name := "Donetsk Region of Ukraine", status := "REGIONAL_SANCTIONS", risk_level := Risk.CRITICAL,
       sanctioning_authorities := ["OFAC", "EU"],
       reason := "DNR/LNR region sanctions",
       blocked := true,
       details := "Sanctions on so-called Donetsk People's Republic.",
       sources := ["https://ofac.treasury.gov/sanctions-programs-and-country-information/ukraine-russia-related-sanctions"] }),
    ("luhansk",
     { name := "Luhansk Region of Ukraine", status := "REGIONAL_SANCTIONS", risk_level := Risk.CRITICAL,
       sanctioning_authorities := ["OFAC", "EU"],
       reason := "DNR/LNR region sanctions",
       blocked := true,
       details := "Sanctions on so-called Luhansk People's Republic.",
       sources := ["https://ofac.treasury.gov/sanctions-programs-and-country-information/ukraine-russia-related-sanctions"] }),
    ("sudan",
     { name := "Sudan", status := "SECTORAL_SANCTIONS", risk_level := Risk.MEDIUM,
       sanctioning_authorities := ["OFAC"],
       reason := "Darfur sanctions",
       blocked := false,
       details := "Targeted sanctions related to Darfur conflict.",
       sources := ["https://ofac.treasury.gov/sanctions-programs-and-country-information/sudan-sanctions"] }),
    ("south sudan",
     { name := "South Sudan", status := "SECTORAL_SANCTIONS", risk_level := Risk.MEDIUM,
       sanctioning_authorities := ["OFAC"],
       reason := "Sanctions on specific individuals",
       blocked := false,
       details := "Targeted sanctions on individuals undermining peace.",
       sources := ["https://ofac.treasury.gov/sanctions-programs-and-country-information/south-sudan-sanctions"] }),
    ("zimbabwe",
     { name := "Zimbabwe", status := "SECTORAL_SANCTIONS", risk_level := Risk.MEDIUM,
       sanctioning_authorities := ["OFAC", "EU"],
       reason := "Sanctions on government officials",
       blocked := false,
       details := "Targeted sanctions on specific individuals and entities.",
       sources := ["https://ofac.treasury.gov/sanctions-programs-and-country-information/zimbabwe-sanctions"] }),
    ("lebanon",
     { name := "Lebanon", status := "TARGETED_SANCTIONS", risk_level := Risk.MEDIUM,
       sanctioning_authorities := ["OFAC"],
       reason := "Hezbollah-related sanctions",
       blocked := false,
       details := "Targeted sanctions related to Hezbollah. Normal trade generally permitted.",
       sources := ["https://ofac.treasury.gov/sanctions-programs-and-country-information/lebanon-related-sanctions"] }),
    ("iraq",
     { name := "Iraq", status := "PARTIAL_SANCTIONS", risk_level := Risk.MEDIUM,
       sanctioning_authorities := ["OFAC"],
       reason := "Sanctions on certain Iraqi entities and individuals",
       blocked := false,
       details := "Targeted sanctions. Normal trade generally permitted with restrictions.",
       sources := ["https://ofac.treasury.gov/sanctions-programs-and-country-information/iraq-related-sanctions"] }),
    ("somalia",
     { name := "Somalia", status := "TARGETED_SANCTIONS", risk_level := Risk.MEDIUM,
       sanctioning_authorities := ["UN"],
       reason := "UN arms embargo",
       blocked := false,
       details := "Arms embargo and targeted sanctions. Normal trade may be permitted.",
       sources := ["https://www.un.org/securitycouncil/sanctions/751"] }),
    ("libya",
     { name := "Libya", status := "TARGETED_SANCTIONS", risk_level := Risk.MEDIUM,
       sanctioning_authorities := ["OFAC", "UN", "EU"],
       reason := "Sanctions on specific entities",
       blocked := false,
       details := "Targeted sanctions. Arms embargo. Normal trade may be permitted with due diligence.",
       sources := ["https://ofac.treasury.gov/sanctions-programs-and-country-information/libya-sanctions"] }),
    ("yemen",
     { name := "Yemen", status := "TARGETED_SANCTIONS", risk_level := Risk.MEDIUM,
       sanctioning_authorities := ["UN"],
       reason := "Sanctions related to conflict",
       blocked := false,
       details := "Targeted sanctions. Arms embargo. Humanitarian exceptions.",
       sources := ["https://www.un.org/securitycouncil/sanctions/2140"] }),
    ("afghanistan",
     { name := "Afghanistan", status := "TARGETED_SANCTIONS", risk_level := Risk.HIGH,
       sanctioning_authorities := ["OFAC", "UN"],
       reason := "Taliban-related sanctions",
       blocked := false,
       details := "Targeted sanctions on Taliban. Humanitarian trade may be permitted.",
       sources := ["https://ofac.treasury.gov/sanctions-programs-and-country-information/afghanistan-related-sanctions"] }) ]

/-- `HIGH_RISK_PORTS` from `app/utils/sanctions_data.py`, key for key. -/
def HIGH_RISK_PORTS : List (String × PortEntry) :=
  [ ("bandar abbas", { country := "Iran", risk := Risk.CRITICAL, reason := "Major Iranian port under US sanctions" }),
    ("bushehr", { country := "Iran", risk := Risk.CRITICAL, reason := "Iranian port under sanctions" }),
    ("chabahar", { country := "Iran", risk := Risk.CRITICAL, reason := "Iranian port under sanctions" }),
    ("nampo", { country := "North Korea", risk := Risk.CRITICAL, reason := "North Korean port - comprehensive sanctions" }),
    ("chongjin", { country := "North Korea", risk := Risk.CRITICAL, reason := "North Korean port - comprehensive sanctions" }),
    ("latakia", { country := "Syria", risk := Risk.CRITICAL, reason := "Syrian port under sanctions" }),
    ("tartus", { country := "Syria", risk := Risk.CRITICAL, reason := "Syrian port under sanctions" }),
    ("novorossiysk", { country := "Russia", risk := Risk.HIGH, reason := "Russian port - sectoral sanctions may apply" }),
    ("st. petersburg", { country := "Russia", risk := Risk.HIGH, reason := "Russian port - sectoral sanctions may apply" }),
    ("vladivostok", { country := "Russia", risk := Risk.HIGH, reason := "Russian port - sectoral sanctions may apply" }),
    ("sevastopol", { country := "Crimea", risk := Risk.CRITICAL, reason := "Crimean port - comprehensive sanctions" }) ]

/-- `DUAL_USE_PRODUCTS` keyword list. -/
def DUAL_USE_PRODUCTS : List String :=
  ["petrochemical", "chemical", "nuclear", "military", "defense", "weapons",
   "missile", "drone", "surveillance", "encryption", "semiconductor",
   "supercomputer", "aircraft", "helicopter", "tank", "ammunition"]

/-- `normalize_country_name`: empty/absent maps to `""`, else `lower().strip()`. -/
def normalize_country_name (country : String) : String :=
  if country = "" then "" else pyLowerStrip country

/-- `check_country_sanctions`: dictionary lookup under the normalized name. -/
def check_country_sanctions (country : String) : Option SanctionEntry :=
  dGet (normalize_country_name country) SANCTIONED_COUNTRIES

/-- `check_port_sanctions`: falsy port gives `None`, else lookup under
`port.lower().strip()`. -/
def check_port_sanctions (port : String) : Option PortEntry :=
  if port = "" then none else dGet (pyLowerStrip port) HIGH_RISK_PORTS

/-- `is_dual_use_product`: falsy description gives `False`, else any keyword
is a substring of the lowercased description. -/
def is_dual_use_product (product_description : String) : Bool :=
  if product_description = "" then false
  else DUAL_USE_PRODUCTS.any (fun keyword => strContains (pyLower product_description) keyword)

/-! ## Compliance evaluator (`app/agents/sanctions_agent.py`, `check_lc_compliance`) -/

/-- The fields `check_lc_compliance` extracts from the nested record
(lines 50-55 of `sanctions_agent.py`); a missing section or key yields
`none`, exactly like the chained `.get` calls. -/
structure LCData where
  beneficiary_country : Option String
  issuing_bank_country : Option String
  port_of_loading : Option String
  port_of_destination : Option String
  product_description : Option String
  amount_usd : Option Int
  deriving DecidableEq, Repr

/-- The `lc_reference` sub-dict of the result. -/
structure LCRef where
  amount : Option Int
  countries : List (Option String)
  ports : List (Option String)
  product : Option String
  deriving DecidableEq, Repr

/-- The result dict of `check_lc_compliance`. -/
structure CResult where
  compliant : Bool
  risk_level : Risk
  blocked : Bool
  reason : String
  details : String
  sources : List String
  recommendations : String
  checked_at : String
  lc_reference : LCRef
  check_method : String
  deriving DecidableEq, Repr

/-- `if field:` on an optional string field — Python truthiness. -/
def countryTrigger (field : Option String) : Option SanctionEntry :=
  match field with
  | none => none
  | some c => if c = "" then none else check_country_sanctions c

/-- `if port:` guard followed by `check_port_sanctions(port)`. -/
def portTrigger (field : Option String) : Option PortEntry :=
  match field with
  | none => none
  | some p => if p = "" then none else check_port_sanctions p

/-- `product and is_dual_use_product(product)`. -/
def dualUseTrigger (field : Option String) : Bool :=
  match field with
  | none => false
  | some p => if p = "" then false else is_dual_use_product p

/-- The initial `result` dict (lines 58-74), with the clock reading made
an explicit argument `now` (the source calls `datetime.now().isoformat()`). -/
def initResult (now : String) (lc : LCData) : CResult :=
  { compliant := true
    risk_level := Risk.LOW
    blocked := false
    reason := ""
    details := ""
    sources := []
    recommendations := ""
    checked_at := now
    lc_reference :=
      { amount := lc.amount_usd
        countries := [lc.beneficiary_country, lc.issuing_bank_country]
        ports := [lc.port_of_loading, lc.port_of_destination]
        product := lc.product_description }
    check_method := "offline_database" }

/-- Evaluator state: the `result` dict plus the local `issues` list. -/
abbrev CState := CResult × List String

/-- Beneficiary-country block (lines 79-87). -/
def checkBeneficiary (lc : LCData) (st : CState) : CState :=
  match countryTrigger lc.beneficiary_country with
  | none => st
  | some e =>
      ({ st.1 with
           risk_level := e.risk_level
           blocked := e.blocked
           compliant := false
           sources := st.1.sources ++ e.sources
           details := st.1.details ++ "\n\n**" ++ e.name ++ " Sanctions:**\n" ++ e.details },
       st.2 ++ ["Beneficiary country (" ++ e.name ++ ") is under " ++ e.status])

/-- Issuing-country block (lines 90-99).  Note it assigns the issuing
entry's level whenever the current level is not CRITICAL. -/
def checkIssuing (lc : LCData) (st : CState) : CState :=
  match countryTrigger lc.issuing_bank_country with
  | none => st
  | some e =>
      let r := st.1
      let r := if e.risk_level = Risk.CRITICAL then { r with risk_level := Risk.CRITICAL }
               else if r.risk_level ≠ Risk.CRITICAL then { r with risk_level := e.risk_level }
               else r
      ({ r with
           compliant := false
           sources := r.sources ++ e.sources },
       st.2 ++ ["Issuing bank country (" ++ e.name ++ ") is under " ++ e.status])

/-- Destination-port block (lines 102-109). -/
def checkDestination (lc : LCData) (st : CState) : CState :=
  match lc.port_of_destination with
  | none => st
  | some pd =>
      if pd = "" then st
      else
        match check_port_sanctions pd with
        | none => st
        | some ps =>
            let r := if ps.risk = Risk.CRITICAL
                     then { st.1 with risk_level := Risk.CRITICAL, blocked := true }
                     else st.1
            ({ r with compliant := false },
             st.2 ++ ["Port of destination (" ++ pd ++ ") is in high-risk area: " ++ ps.reason])

/-- Loading-port block (lines 112-117). -/
def checkLoading (lc : LCData) (st : CState) : CState :=
  match lc.port_of_loading with
  | none => st
  | some pl =>
      if pl = "" then st
      else
        match check_port_sanctions pl with
        | none => st
        | some ps =>
            (if st.1.risk_level ≠ Risk.CRITICAL then { st.1 with risk_level := Risk.HIGH } else st.1,
             st.2 ++ ["Port of loading (" ++ pl ++ ") is in high-risk area: " ++ ps.reason])

/-- Dual-use block (lines 120-124). -/
def checkDualUse (lc : LCData) (st : CState) : CState :=
  match lc.product_description with
  | none => st
  | some pr =>
      if pr = "" then st
      else
        if is_dual_use_product pr then
          (let r := if st.1.risk_level = Risk.LOW then { st.1 with risk_level := Risk.MEDIUM } else st.1
           { r with details := r.details ++ "\n\n**Dual-Use Product Alert:**\nProduct description contains keywords suggesting potential dual-use (civilian + military) applications. Export licenses may be required. Verify Commerce Control List (CCL) classification." },
           st.2 ++ ["Product (" ++ pr ++ ") may be dual-use goods requiring export controls"])
        else st

/-- Final response assembly (lines 126-138). -/
def finalize (lc : LCData) (st : CState) : CResult :=
  let r := st.1
  if st.2.isEmpty then
    { r with
        reason := "No sanctions detected. Transaction appears compliant."
        recommendations := "Transaction can proceed. Standard due diligence recommended."
        details := "Checked against offline sanctions database (updated Nov 2025). No matches found for "
          ++ (match lc.beneficiary_country with
              | some b => if b = "" then "specified country" else b
              | none => "specified country") ++ "." }
  else
    let r := { r with reason := String.intercalate "; " st.2 }
    if r.blocked then
      { r with recommendations := "Transaction CANNOT proceed. Contact compliance team." }
    else if r.risk_level = Risk.HIGH then
      { r with recommendations := "Manual compliance review required before proceeding." }
    else
      { r with recommendations := "Proceed with caution. Verify export control requirements." }

/-- State after the beneficiary-country step. -/
def stage1 (now : String) (lc : LCData) : CState :=
  checkBeneficiary lc (initResult now lc, [])

/-- State after the issuing-country step. -/
def stage2 (now : String) (lc : LCData) : CState := checkIssuing lc (stage1 now lc)

/-- State after the destination-port step. -/
def stage3 (now : String) (lc : LCData) : CState := checkDestination lc (stage2 now lc)

/-- State after the loading-port step. -/
def stage4 (now : String) (lc : LCData) : CState := checkLoading lc (stage3 now lc)

/-- State after the dual-use step. -/
def stage5 (now : String) (lc : LCData) : CState := checkDualUse lc (stage4 now lc)

/-- `check_lc_compliance(lc_data)` with the clock reading `now` explicit. -/
def check_lc_compliance (now : String) (lc_data : LCData) : CResult :=
  finalize lc_data (stage5 now lc_data)

end TradeFast

namespace TradeFast

/-! ## Basic dictionary lemmas -/

theorem dGet_mem {α : Type} {k : String} {l : List (String × α)} {v : α}
    (h : dGet k l = some v) : (k, v) ∈ l := by
  induction l with
  | nil => exact absurd h (by simp [dGet])
  | cons p rest ih =>
      rcases p with ⟨a, b⟩
      by_cases hak : a = k
      · subst hak
        simp [dGet] at h
        exact h ▸ List.mem_cons_self _ _
      · simp [dGet, hak] at h
        exact List.mem_cons_of_mem _ (ih h)

theorem dGet_dSet_self {α : Type} (k : String) (v : α) (l : List (String × α)) :
    dGet k (dSet k v l) = some v := by
  induction l with
  | nil => simp [dGet, dSet]
  | cons p rest ih =>
      by_cases hpk : p.1 = k
      · simp [dSet, hpk, dGet]
      · simp [dSet, hpk, dGet, ih]

theorem dGet_dSet_ne {α : Type} {k k' : String} (v : α) (l : List (String × α))
    (h : k' ≠ k) : dGet k' (dSet k v l) = dGet k' l := by
  have hkk : ¬ k = k' := fun hh => h hh.symm
  induction l with
  | nil => simp [dGet, dSet, hkk]
  | cons p rest ih =>
      by_cases hpk : p.1 = k
      · subst hpk
        simp [dSet, dGet, hkk]
      · by_cases hpk' : p.1 = k'
        · simp [dSet, hpk, dGet, hpk', h]
        · simp [dSet, hpk, dGet, hpk', ih]

theorem dSet_id {α : Type} {k : String} {v : α} {l : List (String × α)}
    (h : dGet k l = some v) : dSet k v l = l := by
  induction l with
  | nil => simp [dGet] at h
  | cons p rest ih =>
      rcases p with ⟨a, b⟩
      by_cases hak : a = k
      · subst hak
        simp [dGet] at h
        simp [dSet, h]
      · simp [dGet, hak] at h
        simp [dSet, hak, ih h]

/-! ## Table facts and risk-order helpers -/

/-- Every `SANCTIONED_COUNTRIES` entry with `blocked=True` has risk CRITICAL. -/
theorem sanctioned_blocked_critical :
    ∀ p ∈ SANCTIONED_COUNTRIES, p.2.blocked = true → p.2.risk_level = Risk.CRITICAL := by
  decide

theorem countryTrigger_blocked_critical {o : Option String} {e : SanctionEntry}
    (h : countryTrigger o = some e) (hb : e.blocked = true) :
    e.risk_level = Risk.CRITICAL := by
  rcases o with _ | c
  · exact absurd h (by simp [countryTrigger])
  · by_cases hc : c = ""
    · exact absurd h (by simp [countryTrigger, hc])
    · have h2 : check_country_sanctions c = some e := by
        simpa [countryTrigger, hc] using h
      have h3 : dGet (normalize_country_name c) SANCTIONED_COUNTRIES = some e := h2
      exact sanctioned_blocked_critical _ (dGet_mem h3) hb

theorem riskLe_low (r : Risk) : riskLe Risk.LOW r := by cases r <;> decide

theorem riskLe_self (r : Risk) : riskLe r r := by cases r <;> decide

theorem riskLe_crit (r : Risk) : riskLe r Risk.CRITICAL := by cases r <;> decide

theorem riskLe_high_of_ne {r : Risk} (h : r ≠ Risk.CRITICAL) : riskLe r Risk.HIGH := by
  cases r <;> first | decide | exact absurd rfl h

theorem riskLe_med_of_low {r : Risk} (h : r = Risk.LOW) : riskLe r Risk.MEDIUM := by
  subst h; decide

end TradeFast

namespace TradeFast

/-! ## Per-step facts about the evaluator -/

theorem checkBeneficiary_no_hit {lc : LCData} {st : CState}
    (h : countryTrigger lc.beneficiary_country = none) : checkBeneficiary lc st = st := by
  simp [checkBeneficiary, h]

theorem checkIssuing_no_hit {lc : LCData} {st : CState}
    (h : countryTrigger lc.issuing_bank_country = none) : checkIssuing lc st = st := by
  simp [checkIssuing, h]

theorem checkDestination_no_hit {lc : LCData} {st : CState}
    (h : portTrigger lc.port_of_destination = none) : checkDestination lc st = st := by
  cases hpd : lc.port_of_destination with
  | none => simp [checkDestination, hpd]
  | some p =>
      by_cases hp : p = ""
      · simp [checkDestination, hpd, hp]
      · have h2 : check_port_sanctions p = none := by
          simpa [portTrigger, hpd, hp] using h
        simp [checkDestination, hpd, hp, h2]

theorem checkLoading_no_hit {lc : LCData} {st : CState}
    (h : portTrigger lc.port_of_loading = none) : checkLoading lc st = st := by
  cases hpl : lc.port_of_loading with
  | none => simp [checkLoading, hpl]
  | some p =>
      by_cases hp : p = ""
      · simp [checkLoading, hpl, hp]
      · have h2 : check_port_sanctions p = none := by
          simpa [portTrigger, hpl, hp] using h
        simp [checkLoading, hpl, hp, h2]

theorem checkDualUse_no_hit {lc : LCData} {st : CState}
    (h : dualUseTrigger lc.product_description = false) : checkDualUse lc st = st := by
  cases hpr : lc.product_description with
  | none => simp [checkDualUse, hpr]
  | some p =>
      by_cases hp : p = ""
      · simp [checkDualUse, hpr, hp]
      · have h2 : is_dual_use_product p = false := by
          simpa [dualUseTrigger, hpr, hp] using h
        simp [checkDualUse, hpr, hp, h2]

theorem issuing_blocked_eq (lc : LCData) (st : CState) :
    (checkIssuing lc st).1.blocked = st.1.blocked := by
  cases hc : countryTrigger lc.issuing_bank_country with
  | none => simp [checkIssuing, hc]
  | some e =>
      by_cases h1 : e.risk_level = Risk.CRITICAL <;>
        by_cases h2 : st.1.risk_level = Risk.CRITICAL <;>
          simp [checkIssuing, hc, h1, h2]

theorem issuing_compliant_false (lc : LCData) (st : CState) {e : SanctionEntry}
    (hc : countryTrigger lc.issuing_bank_country = some e) :
    (checkIssuing lc st).1.compliant = false := by
  by_cases h1 : e.risk_level = Risk.CRITICAL <;>
    by_cases h2 : st.1.risk_level = Risk.CRITICAL <;>
      simp [checkIssuing, hc, h1, h2]

theorem issuing_keeps_crit (lc : LCData) (st : CState)
    (h : st.1.risk_level = Risk.CRITICAL) :
    (checkIssuing lc st).1.risk_level = Risk.CRITICAL := by
  cases hc : countryTrigger lc.issuing_bank_country with
  | none => simpa [checkIssuing, hc] using h
  | some e =>
      by_cases h1 : e.risk_level = Risk.CRITICAL <;>
        simp [checkIssuing, hc, h1, h]

theorem loading_blocked_eq (lc : LCData) (st : CState) :
    (checkLoading lc st).1.blocked = st.1.blocked := by
  cases hpl : lc.port_of_loading with
  | none => simp [checkLoading, hpl]
  | some p =>
      by_cases hp : p = ""
      · simp [checkLoading, hpl, hp]
      · cases hs : check_port_sanctions p with
        | none => simp [checkLoading, hpl, hp, hs]
        | some ps =>
            by_cases hcrit : st.1.risk_level = Risk.CRITICAL <;>
              simp [checkLoading, hpl, hp, hs, hcrit]

theorem loading_compliant_eq (lc : LCData) (st : CState) :
    (checkLoading lc st).1.compliant = st.1.compliant := by
  cases hpl : lc.port_of_loading with
  | none => simp [checkLoading, hpl]
  | some p =>
      by_cases hp : p = ""
      · simp [checkLoading, hpl, hp]
      · cases hs : check_port_sanctions p with
        | none => simp [checkLoading, hpl, hp, hs]
        | some ps =>
            by_cases hcrit : st.1.risk_level = Risk.CRITICAL <;>
              simp [checkLoading, hpl, hp, hs, hcrit]

theorem loading_keeps_crit (lc : LCData) (st : CState)
    (h : st.1.risk_level = Risk.CRITICAL) :
    (checkLoading lc st).1.risk_level = Risk.CRITICAL := by
  cases hpl : lc.port_of_loading with
  | none => simpa [checkLoading, hpl] using h
  | some p =>
      by_cases hp : p = ""
      · simpa [checkLoading, hpl, hp] using h
      · cases hs : check_port_sanctions p with
        | none => simpa [checkLoading, hpl, hp, hs] using h
        | some ps => simp [checkLoading, hpl, hp, hs, h]

theorem dual_blocked_eq (lc : LCData) (st : CState) :
    (checkDualUse lc st).1.blocked = st.1.blocked := by
  cases hpr : lc.product_description with
  | none => simp [checkDualUse, hpr]
  | some p =>
      by_cases hp : p = ""
      · simp [checkDualUse, hpr, hp]
      · cases hd : is_dual_use_product p with
        | false => simp [checkDualUse, hpr, hp, hd]
        | true =>
            by_cases hlow : st.1.risk_level = Risk.LOW <;>
              simp [checkDualUse, hpr, hp, hd, hlow]

theorem dual_compliant_eq (lc : LCData) (st : CState) :
    (checkDualUse lc st).1.compliant = st.1.compliant := by
  cases hpr : lc.product_description with
  | none => simp [checkDualUse, hpr]
  | some p =>
      by_cases hp : p = ""
      · simp [checkDualUse, hpr, hp]
      · cases hd : is_dual_use_product p with
        | false => simp [checkDualUse, hpr, hp, hd]
        | true =>
            by_cases hlow : st.1.risk_level = Risk.LOW <;>
              simp [checkDualUse, hpr, hp, hd, hlow]

theorem dual_keeps_crit (lc : LCData) (st : CState)
    (h : st.1.risk_level = Risk.CRITICAL) :
    (checkDualUse lc st).1.risk_level = Risk.CRITICAL := by
  cases hpr : lc.product_description with
  | none => simpa [checkDualUse, hpr] using h
  | some p =>
      by_cases hp : p = ""
      · simpa [checkDualUse, hpr, hp] using h
      · cases hd : is_dual_use_product p with
        | false => simpa [checkDualUse, hpr, hp, hd] using h
        | true => simp [checkDualUse, hpr, hp, hd, h]

theorem dest_blocked_mono (lc : LCData) (st : CState)
    (h : st.1.blocked = true) : (checkDestination lc st).1.blocked = true := by
  cases hpd : lc.port_of_destination with
  | none => simpa [checkDestination, hpd] using h
  | some p =>
      by_cases hp : p = ""
      · simpa [checkDestination, hpd, hp] using h
      · cases hs : check_port_sanctions p with
        | none => simpa [checkDestination, hpd, hp, hs] using h
        | some ps =>
            by_cases hcrit : ps.risk = Risk.CRITICAL <;>
              simp [checkDestination, hpd, hp, hs, hcrit, h]

theorem dest_keeps_crit (lc : LCData) (st : CState)
    (h : st.1.risk_level = Risk.CRITICAL) :
    (checkDestination lc st).1.risk_level = Risk.CRITICAL := by
  cases hpd : lc.port_of_destination with
  | none => simpa [checkDestination, hpd] using h
  | some p =>
      by_cases hp : p = ""
      · simpa [checkDestination, hpd, hp] using h
      · cases hs : check_port_sanctions p with
        | none => simpa [checkDestination, hpd, hp, hs] using h
        | some ps =>
            by_cases hcrit : ps.risk = Risk.CRITICAL <;>
              simp [checkDestination, hpd, hp, hs, hcrit, h]

theorem finalize_risk_eq (lc : LCData) (st : CState) :
    (finalize lc st).risk_level = st.1.risk_level := by
  by_cases hE : st.2.isEmpty <;>
    by_cases hB : st.1.blocked = true <;>
      by_cases hH : st.1.risk_level = Risk.HIGH <;>
        simp [finalize, hE, hB, hH]

theorem finalize_blocked_eq (lc : LCData) (st : CState) :
    (finalize lc st).blocked = st.1.blocked := by
  by_cases hE : st.2.isEmpty <;>
    by_cases hB : st.1.blocked = true <;>
      by_cases hH : st.1.risk_level = Risk.HIGH <;>
        simp [finalize, hE, hB, hH]

theorem finalize_compliant_eq (lc : LCData) (st : CState) :
    (finalize lc st).compliant = st.1.compliant := by
  by_cases hE : st.2.isEmpty <;>
    by_cases hB : st.1.blocked = true <;>
      by_cases hH : st.1.risk_level = Risk.HIGH <;>
        simp [finalize, hE, hB, hH]

end TradeFast

namespace TradeFast

/-! ## The blocked-implies-critical invariant -/

/-- `blocked` entails non-compliant and CRITICAL risk. -/
def BlockedOk (r : CResult) : Prop :=
  r.blocked = true → r.compliant = false ∧ r.risk_level = Risk.CRITICAL

theorem blockedOk_init (now : String) (lc : LCData) : BlockedOk (initResult now lc) := by
  intro hb
  exact absurd hb (by simp [initResult])

theorem blockedOk_beneficiary (lc : LCData) (st : CState) (h : BlockedOk st.1) :
    BlockedOk (checkBeneficiary lc st).1 := by
  cases hc : countryTrigger lc.beneficiary_country with
  | none => simpa [checkBeneficiary, hc] using h
  | some e =>
      intro hb
      have hbe : e.blocked = true := by simpa [checkBeneficiary, hc] using hb
      constructor
      · simp [checkBeneficiary, hc]
      · simp [checkBeneficiary, hc, countryTrigger_blocked_critical hc hbe]

theorem blockedOk_issuing (lc : LCData) (st : CState) (h : BlockedOk st.1) :
    BlockedOk (checkIssuing lc st).1 := by
  cases hc : countryTrigger lc.issuing_bank_country with
  | none => simpa [checkIssuing, hc] using h
  | some e =>
      intro hb
      have hb0 : st.1.blocked = true := by rw [issuing_blocked_eq] at hb; exact hb
      rcases h hb0 with ⟨_, h2⟩
      exact ⟨issuing_compliant_false lc st hc, issuing_keeps_crit lc st h2⟩

theorem blockedOk_destination (lc : LCData) (st : CState) (h : BlockedOk st.1) :
    BlockedOk (checkDestination lc st).1 := by
  cases hpd : lc.port_of_destination with
  | none => simpa [checkDestination, hpd] using h
  | some p =>
      by_cases hp : p = ""
      · simpa [checkDestination, hpd, hp] using h
      · cases hs : check_port_sanctions p with
        | none => simpa [checkDestination, hpd, hp, hs] using h
        | some ps =>
            by_cases hcrit : ps.risk = Risk.CRITICAL
            · intro hb
              constructor <;> simp [checkDestination, hpd, hp, hs, hcrit]
            · intro hb
              have hb0 : st.1.blocked = true := by
                simpa [checkDestination, hpd, hp, hs, hcrit] using hb
              rcases h hb0 with ⟨h1, h2⟩
              constructor <;> simp [checkDestination, hpd, hp, hs, hcrit, h1, h2]

theorem blockedOk_loading (lc : LCData) (st : CState) (h : BlockedOk st.1) :
    BlockedOk (checkLoading lc st).1 := by
  intro hb
  have hb0 : st.1.blocked = true := by rw [loading_blocked_eq] at hb; exact hb
  rcases h hb0 with ⟨h1, h2⟩
  refine ⟨?_, loading_keeps_crit lc st h2⟩
  rw [loading_compliant_eq]
  exact h1

theorem blockedOk_dual (lc : LCData) (st : CState) (h : BlockedOk st.1) :
    BlockedOk (checkDualUse lc st).1 := by
  intro hb
  have hb0 : st.1.blocked = true := by rw [dual_blocked_eq] at hb; exact hb
  rcases h hb0 with ⟨h1, h2⟩
  refine ⟨?_, dual_keeps_crit lc st h2⟩
  rw [dual_compliant_eq]
  exact h1

theorem blockedOk_finalize (lc : LCData) (st : CState) (h : BlockedOk st.1) :
    BlockedOk (finalize lc st) := by
  intro hb
  have hb0 : st.1.blocked = true := by rw [finalize_blocked_eq] at hb; exact hb
  rcases h hb0 with ⟨h1, h2⟩
  exact ⟨by rw [finalize_compliant_eq]; exact h1, by rw [finalize_risk_eq]; exact h2⟩

theorem blockedOk_check (now : String) (lc : LCData) :
    BlockedOk (check_lc_compliance now lc) :=
  blockedOk_finalize lc _
    (blockedOk_dual lc _ (blockedOk_loading lc _ (blockedOk_destination lc _
      (blockedOk_issuing lc _ (blockedOk_beneficiary lc _ (blockedOk_init now lc))))))

/-- A CRITICAL destination-port hit forces CRITICAL risk and `blocked`. -/
theorem dest_crit_hit (lc : LCData) (st : CState) {p : String} {ps : PortEntry}
    (hpd : lc.port_of_destination = some p) (hp : ¬ p = "")
    (hs : check_port_sanctions p = some ps) (hcrit : ps.risk = Risk.CRITICAL) :
    (checkDestination lc st).1.risk_level = Risk.CRITICAL ∧
    (checkDestination lc st).1.blocked = true := by
  constructor <;> simp [checkDestination, hpd, hp, hs, hcrit]

/-! ## Sample records used as concrete inputs -/

/-- Beneficiary Iran, nothing else set. -/
def lcIran : LCData :=
  { beneficiary_country := some "Iran", issuing_bank_country := none,
    port_of_loading := none, port_of_destination := none,
    product_description := none, amount_usd := none }

/-- Beneficiary United Arab Emirates, nothing else set. -/
def lcUAE : LCData :=
  { beneficiary_country := some "United Arab Emirates", issuing_bank_country := none,
    port_of_loading := none, port_of_destination := none,
    product_description := none, amount_usd := none }

/-- Destination port Bandar Abbas, nothing else set. -/
def lcBandar : LCData :=
  { beneficiary_country := none, issuing_bank_country := none,
    port_of_loading := none, port_of_destination := some "Bandar Abbas",
    product_description := none, amount_usd := none }

/-- Beneficiary Russia (HIGH) with issuing country Iraq (MEDIUM). -/
def lcRusIraq : LCData :=
  { beneficiary_country := some "Russia", issuing_bank_country := some "Iraq",
    port_of_loading := none, port_of_destination := none,
    product_description := none, amount_usd := none }

/-- The fully empty record. -/
def lcEmpty : LCData :=
  { beneficiary_country := none, issuing_bank_country := none,
    port_of_loading := none, port_of_destination := none,
    product_description := none, amount_usd := none }

end TradeFast

namespace TradeFast

/-- C2: for every input record, the verdict of `check_lc_compliance`
satisfies `blocked = true → compliant = false ∧ risk_level = CRITICAL`. -/
theorem C2_blocked_implies_noncompliant_critical (now : String) (lc : LCData)
    (h : (check_lc_compliance now lc).blocked = true) :
    (check_lc_compliance now lc).compliant = false ∧
    (check_lc_compliance now lc).risk_level = Risk.CRITICAL :=
  blockedOk_check now lc h

/-- Witness for C2 at the concrete record with beneficiary country Iran. -/
theorem C2_blocked_implies_noncompliant_critical_witness :
    (check_lc_compliance "2025-11-30T12:00:00" lcIran).blocked = true ∧
    ((check_lc_compliance "2025-11-30T12:00:00" lcIran).compliant = false ∧
     (check_lc_compliance "2025-11-30T12:00:00" lcIran).risk_level = Risk.CRITICAL) :=
  ⟨rfl, C2_blocked_implies_noncompliant_critical "2025-11-30T12:00:00" lcIran rfl⟩

/-- C6: any record whose destination port normalizes (`lower().strip()`)
to `"bandar abbas"` gets a CRITICAL, blocked verdict, whatever the other
fields hold. -/
theorem C6_bandar_abbas_critical_blocked (now : String) (lc : LCData) (p : String)
    (hpd : lc.port_of_destination = some p)
    (hnorm : pyLowerStrip p = "bandar abbas") :
    (check_lc_compliance now lc).risk_level = Risk.CRITICAL ∧
    (check_lc_compliance now lc).blocked = true := by
  have hp : ¬ p = "" := by
    intro he
    rw [he] at hnorm
    exact absurd hnorm (by decide)
  have hs : check_port_sanctions p =
      some { country := "Iran", risk := Risk.CRITICAL,
             reason := "Major Iranian port under US sanctions" } := by
    unfold check_port_sanctions
    rw [if_neg hp, hnorm]
    rfl
  have h3 := dest_crit_hit lc (stage2 now lc) hpd hp hs rfl
  have h4r : (stage4 now lc).1.risk_level = Risk.CRITICAL :=
    loading_keeps_crit lc (stage3 now lc) h3.1
  have h4b : (stage4 now lc).1.blocked = true := by
    have := loading_blocked_eq lc (stage3 now lc)
    unfold stage4
    rw [this]
    exact h3.2
  have h5r : (stage5 now lc).1.risk_level = Risk.CRITICAL :=
    dual_keeps_crit lc (stage4 now lc) h4r
  have h5b : (stage5 now lc).1.blocked = true := by
    have := dual_blocked_eq lc (stage4 now lc)
    unfold stage5
    rw [this]
    exact h4b
  constructor
  · rw [check_lc_compliance, finalize_risk_eq]
    exact h5r
  · rw [check_lc_compliance, finalize_blocked_eq]
    exact h5b

/-- Witness for C6 at destination port "Bandar Abbas". -/
theorem C6_bandar_abbas_critical_blocked_witness :
    lcBandar.port_of_destination = some "Bandar Abbas" ∧
    pyLowerStrip "Bandar Abbas" = "bandar abbas" ∧
    ((check_lc_compliance "2025-11-30T12:00:00" lcBandar).risk_level = Risk.CRITICAL ∧
     (check_lc_compliance "2025-11-30T12:00:00" lcBandar).blocked = true) :=
  ⟨rfl, rfl,
   C6_bandar_abbas_critical_blocked "2025-11-30T12:00:00" lcBandar "Bandar Abbas" rfl rfl⟩

/-- C9: when every country/port lookup misses and the description has no
dual-use keyword, the evaluator returns compliant, LOW, not blocked (a
lookup miss is the normal case, not an error; the embedding is total). -/
theorem C9_reference_miss_is_clean (now : String) (lc : LCData)
    (hb : countryTrigger lc.beneficiary_country = none)
    (hi : countryTrigger lc.issuing_bank_country = none)
    (hd : portTrigger lc.port_of_destination = none)
    (hl : portTrigger lc.port_of_loading = none)
    (hp : dualUseTrigger lc.product_description = false) :
    (check_lc_compliance now lc).compliant = true ∧
    (check_lc_compliance now lc).risk_level = Risk.LOW ∧
    (check_lc_compliance now lc).blocked = false := by
  have h5 : stage5 now lc = (initResult now lc, []) := by
    unfold stage5 stage4 stage3 stage2 stage1
    rw [checkBeneficiary_no_hit hb, checkIssuing_no_hit hi, checkDestination_no_hit hd,
        checkLoading_no_hit hl, checkDualUse_no_hit hp]
  unfold check_lc_compliance
  rw [h5]
  constructor
  · rw [finalize_compliant_eq]
    rfl
  constructor
  · rw [finalize_risk_eq]
    rfl
  · rw [finalize_blocked_eq]
    rfl

/-- Witness for C9 at beneficiary country "United Arab Emirates". -/
theorem C9_reference_miss_is_clean_witness :
    countryTrigger lcUAE.beneficiary_country = none ∧
    ((check_lc_compliance "2025-11-30T12:00:00" lcUAE).compliant = true ∧
     (check_lc_compliance "2025-11-30T12:00:00" lcUAE).risk_level = Risk.LOW ∧
     (check_lc_compliance "2025-11-30T12:00:00" lcUAE).blocked = false) :=
  ⟨rfl, C9_reference_miss_is_clean "2025-11-30T12:00:00" lcUAE rfl rfl rfl rfl rfl⟩

end TradeFast

namespace TradeFast

/-! ## Step-wise risk monotonicity (where it holds) -/

theorem dest_risk_mono (lc : LCData) (st : CState) :
    riskLe st.1.risk_level (checkDestination lc st).1.risk_level := by
  cases hpd : lc.port_of_destination with
  | none => simp [checkDestination, hpd, riskLe_self]
  | some p =>
      by_cases hp : p = ""
      · simp [checkDestination, hpd, hp, riskLe_self]
      · cases hs : check_port_sanctions p with
        | none => simp [checkDestination, hpd, hp, hs, riskLe_self]
        | some ps =>
            by_cases hcrit : ps.risk = Risk.CRITICAL <;>
              simp [checkDestination, hpd, hp, hs, hcrit, riskLe_self, riskLe_crit]

theorem loading_risk_mono (lc : LCData) (st : CState) :
    riskLe st.1.risk_level (checkLoading lc st).1.risk_level := by
  cases hpl : lc.port_of_loading with
  | none => simp [checkLoading, hpl, riskLe_self]
  | some p =>
      by_cases hp : p = ""
      · simp [checkLoading, hpl, hp, riskLe_self]
      · cases hs : check_port_sanctions p with
        | none => simp [checkLoading, hpl, hp, hs, riskLe_self]
        | some ps =>
            by_cases hcrit : st.1.risk_level = Risk.CRITICAL <;>
              simp [checkLoading, hpl, hp, hs, hcrit, riskLe_self, riskLe_high_of_ne]

theorem dual_risk_mono (lc : LCData) (st : CState) :
    riskLe st.1.risk_level (checkDualUse lc st).1.risk_level := by
  cases hpr : lc.product_description with
  | none => simp [checkDualUse, hpr, riskLe_self]
  | some p =>
      by_cases hp : p = ""
      · simp [checkDualUse, hpr, hp, riskLe_self]
      · cases hd : is_dual_use_product p with
        | false => simp [checkDualUse, hpr, hp, hd, riskLe_self]
        | true =>
            by_cases hlow : st.1.risk_level = Risk.LOW <;>
              simp [checkDualUse, hpr, hp, hd, hlow, riskLe_self, riskLe_med_of_low]

theorem dest_blocked_imp (lc : LCData) (st : CState) :
    st.1.blocked = true → (checkDestination lc st).1.blocked = true :=
  dest_blocked_mono lc st

/-- C1 (amended): `blocked` is only ever set, never reset, along the five
evaluation steps, and the risk level is monotonic non-decreasing at every
step except the issuing-country step, which preserves CRITICAL but may
overwrite a non-CRITICAL level with the issuing entry's level; the final
verdict carries the risk/blocked of the last step unchanged. -/
theorem C1_amended_stepwise_monotonicity (now : String) (lc : LCData) :
    riskLe (initResult now lc).risk_level (stage1 now lc).1.risk_level ∧
    riskLe (stage2 now lc).1.risk_level (stage3 now lc).1.risk_level ∧
    riskLe (stage3 now lc).1.risk_level (stage4 now lc).1.risk_level ∧
    riskLe (stage4 now lc).1.risk_level (stage5 now lc).1.risk_level ∧
    ((stage1 now lc).1.risk_level = Risk.CRITICAL →
      (stage2 now lc).1.risk_level = Risk.CRITICAL) ∧
    ((initResult now lc).blocked = true → (stage1 now lc).1.blocked = true) ∧
    ((stage1 now lc).1.blocked = true → (stage2 now lc).1.blocked = true) ∧
    ((stage2 now lc).1.blocked = true → (stage3 now lc).1.blocked = true) ∧
    ((stage3 now lc).1.blocked = true → (stage4 now lc).1.blocked = true) ∧
    ((stage4 now lc).1.blocked = true → (stage5 now lc).1.blocked = true) ∧
    (check_lc_compliance now lc).risk_level = (stage5 now lc).1.risk_level ∧
    (check_lc_compliance now lc).blocked = (stage5 now lc).1.blocked := by
  refine ⟨?_, ?_, ?_, ?_, ?_, ?_, ?_, ?_, ?_, ?_, ?_, ?_⟩
  · exact riskLe_low _
  · exact dest_risk_mono lc (stage2 now lc)
  · exact loading_risk_mono lc (stage3 now lc)
  · exact dual_risk_mono lc (stage4 now lc)
  · exact issuing_keeps_crit lc (stage1 now lc)
  · intro h
    exact absurd h (by simp [initResult])
  · intro h
    unfold stage2
    rw [issuing_blocked_eq]
    exact h
  · exact dest_blocked_imp lc (stage2 now lc)
  · intro h
    unfold stage4
    rw [loading_blocked_eq]
    exact h
  · intro h
    unfold stage5
    rw [dual_blocked_eq]
    exact h
  · exact finalize_risk_eq lc (stage5 now lc)
  · exact finalize_blocked_eq lc (stage5 now lc)

/-- Witness for C1 (amended) at the Iran record. -/
theorem C1_amended_stepwise_monotonicity_witness :
    riskLe (initResult "t" lcIran).risk_level (stage1 "t" lcIran).1.risk_level ∧
    riskLe (stage2 "t" lcIran).1.risk_level (stage3 "t" lcIran).1.risk_level ∧
    riskLe (stage3 "t" lcIran).1.risk_level (stage4 "t" lcIran).1.risk_level ∧
    riskLe (stage4 "t" lcIran).1.risk_level (stage5 "t" lcIran).1.risk_level ∧
    ((stage1 "t" lcIran).1.risk_level = Risk.CRITICAL →
      (stage2 "t" lcIran).1.risk_level = Risk.CRITICAL) ∧
    ((initResult "t" lcIran).blocked = true → (stage1 "t" lcIran).1.blocked = true) ∧
    ((stage1 "t" lcIran).1.blocked = true → (stage2 "t" lcIran).1.blocked = true) ∧
    ((stage2 "t" lcIran).1.blocked = true → (stage3 "t" lcIran).1.blocked = true) ∧
    ((stage3 "t" lcIran).1.blocked = true → (stage4 "t" lcIran).1.blocked = true) ∧
    ((stage4 "t" lcIran).1.blocked = true → (stage5 "t" lcIran).1.blocked = true) ∧
    (check_lc_compliance "t" lcIran).risk_level = (stage5 "t" lcIran).1.risk_level ∧
    (check_lc_compliance "t" lcIran).blocked = (stage5 "t" lcIran).1.blocked :=
  C1_amended_stepwise_monotonicity "t" lcIran

/-- C1 (counterexample): beneficiary Russia triggers at HIGH, but the
issuing-country step (Iraq, MEDIUM) overwrites the level downward, so the
final risk level MEDIUM is strictly below the triggered beneficiary rule's
HIGH — the claimed step-wise monotonicity and the `max`-equivalence fail. -/
theorem C1_counterexample_russia_iraq :
    (stage1 "2025-11-30T12:00:00" lcRusIraq).1.risk_level = Risk.HIGH ∧
    (stage2 "2025-11-30T12:00:00" lcRusIraq).1.risk_level = Risk.MEDIUM ∧
    (check_lc_compliance "2025-11-30T12:00:00" lcRusIraq).risk_level = Risk.MEDIUM ∧
    ¬ riskLe Risk.HIGH Risk.MEDIUM :=
  ⟨rfl, rfl, rfl, by decide⟩

end TradeFast

namespace TradeFast

/-! ## Where the clock reading can appear in the result -/

/-- Overwrite the `checked_at` field of the state. -/
def setCA (x : String) (st : CState) : CState :=
  ({ st.1 with checked_at := x }, st.2)

theorem ca_checkBeneficiary (lc : LCData) (x : String) (st : CState) :
    checkBeneficiary lc (setCA x st) = setCA x (checkBeneficiary lc st) := by
  cases hc : countryTrigger lc.beneficiary_country <;>
    simp [checkBeneficiary, hc, setCA]

theorem ca_checkIssuing (lc : LCData) (x : String) (st : CState) :
    checkIssuing lc (setCA x st) = setCA x (checkIssuing lc st) := by
  cases hc : countryTrigger lc.issuing_bank_country with
  | none => simp [checkIssuing, hc, setCA]
  | some e =>
      by_cases h1 : e.risk_level = Risk.CRITICAL <;>
        by_cases h2 : st.1.risk_level = Risk.CRITICAL <;>
          simp [checkIssuing, hc, setCA, h1, h2]

theorem ca_checkDestination (lc : LCData) (x : String) (st : CState) :
    checkDestination lc (setCA x st) = setCA x (checkDestination lc st) := by
  cases hpd : lc.port_of_destination with
  | none => simp [checkDestination, hpd, setCA]
  | some p =>
      by_cases hp : p = ""
      · simp [checkDestination, hpd, hp, setCA]
      · cases hs : check_port_sanctions p with
        | none => simp [checkDestination, hpd, hp, hs, setCA]
        | some ps =>
            by_cases hcrit : ps.risk = Risk.CRITICAL <;>
              simp [checkDestination, hpd, hp, hs, hcrit, setCA]

theorem ca_checkLoading (lc : LCData) (x : String) (st : CState) :
    checkLoading lc (setCA x st) = setCA x (checkLoading lc st) := by
  cases hpl : lc.port_of_loading with
  | none => simp [checkLoading, hpl, setCA]
  | some p =>
      by_cases hp : p = ""
      · simp [checkLoading, hpl, hp, setCA]
      · cases hs : check_port_sanctions p with
        | none => simp [checkLoading, hpl, hp, hs, setCA]
        | some ps =>
            by_cases hcrit : st.1.risk_level = Risk.CRITICAL <;>
              simp [checkLoading, hpl, hp, hs, hcrit, setCA]

theorem ca_checkDualUse (lc : LCData) (x : String) (st : CState) :
    checkDualUse lc (setCA x st) = setCA x (checkDualUse lc st) := by
  cases hpr : lc.product_description with
  | none => simp [checkDualUse, hpr, setCA]
  | some p =>
      by_cases hp : p = ""
      · simp [checkDualUse, hpr, hp, setCA]
      · cases hd : is_dual_use_product p with
        | false => simp [checkDualUse, hpr, hp, hd, setCA]
        | true =>
            by_cases hlow : st.1.risk_level = Risk.LOW <;>
              simp [checkDualUse, hpr, hp, hd, hlow, setCA]

theorem ca_finalize (lc : LCData) (x : String) (st : CState) :
    finalize lc (setCA x st) = { finalize lc st with checked_at := x } := by
  by_cases hE : st.2.isEmpty <;>
    by_cases hB : st.1.blocked = true <;>
      by_cases hH : st.1.risk_level = Risk.HIGH <;>
        simp [finalize, setCA, hE, hB, hH]

theorem stage5_setCA (t x : String) (lc : LCData) :
    stage5 t lc = setCA t (stage5 x lc) := by
  unfold stage5 stage4 stage3 stage2 stage1
  rw [show (initResult t lc, ([] : List String)) = setCA t (initResult x lc, []) from rfl]
  rw [ca_checkBeneficiary, ca_checkIssuing, ca_checkDestination, ca_checkLoading,
      ca_checkDualUse]

theorem check_setCA (t x : String) (lc : LCData) :
    check_lc_compliance t lc = { check_lc_compliance x lc with checked_at := t } := by
  unfold check_lc_compliance
  rw [stage5_setCA t x lc, ca_finalize]

/-- C5 (amended): the result of `check_lc_compliance` depends on the clock
only through `checked_at`: for any two clock readings the results agree on
every other field, and `checked_at` is exactly the clock reading. -/
theorem C5_amended_deterministic_up_to_timestamp (lc : LCData) (t1 t2 : String) :
    ({ check_lc_compliance t1 lc with checked_at := "" } =
      { check_lc_compliance t2 lc with checked_at := "" }) ∧
    (check_lc_compliance t1 lc).checked_at = t1 := by
  constructor
  · rw [check_setCA t1 t2 lc]
  · rw [check_setCA t1 "" lc]

/-- C5 (counterexample): two invocations of `check_lc_compliance` on the
same record but different clock readings return different result dicts, so
the result is not a function of the record alone. -/
theorem C5_counterexample_timestamp :
    check_lc_compliance "2025-11-30T12:00:00" lcEmpty ≠
      check_lc_compliance "2025-11-30T12:00:01" lcEmpty := by
  intro h
  have h2 := congrArg CResult.checked_at h
  exact absurd h2 (by decide)

end TradeFast

namespace TradeFast

/-! ## Record merge (`vapi_lc_assistant.merge_collected_data` and
`voice_lc_agent._merge_lc_data`)

An LC record is a Python dict mapping section names to values; a section
value is normally itself a dict of fields, but may be any other JSON-ish
value (the illustrative record shape has `transaction_role` as a plain
string).  Both merge loops are

    merged = copy.deepcopy(provided)
    for section, fields in incoming.items():
        if section not in merged: merged[section] = {}
        if isinstance(fields, dict):
            for field, value in fields.items():
                if <keep condition>: merged[section][field] = value

and differ only in the keep condition; `copy.deepcopy` justifies the
value semantics of the embedding.  When the base section value is not a
dict but the incoming one is a non-trivial dict, the inner statements
raise `TypeError` (`x in 5`, string indexing, or item assignment on a
non-dict); this is modelled by `Except.error ()`. -/

/-- A leaf JSON value stored in a field. -/
inductive JVal where
  | null : JVal
  | str : String → JVal
  | num : Int → JVal
  | bool : Bool → JVal
  deriving DecidableEq, Repr

/-- A section value: a dict of fields, or a bare (non-dict) value. -/
inductive SecVal where
  | obj : List (String × JVal) → SecVal
  | prim : JVal → SecVal
  deriving DecidableEq, Repr

/-- A record: insertion-ordered dict from section name to section value. -/
abbrev LCRec := List (String × SecVal)

/-- The inner field loop, parameterized by the keep condition. -/
def mFields (keep : List (String × JVal) → String → JVal → Bool) :
    List (String × JVal) → List (String × JVal) → List (String × JVal)
  | base, [] => base
  | base, p :: rest =>
      mFields keep (if keep base p.1 p.2 then dSet p.1 p.2 base else base) rest

/-- One iteration of the section loop: optional `merged[section] = {}`
creation, then the inner loop (or a `TypeError`, see `primErr`). -/
def mSection (keep : List (String × JVal) → String → JVal → Bool)
    (primErr : JVal → List (String × JVal) → Bool)
    (merged : LCRec) (sec : String) (fields : SecVal) : Except Unit LCRec :=
  let m1 := if (dGet sec merged).isSome then merged else dSet sec (SecVal.obj []) merged
  match fields with
  | SecVal.prim _ => Except.ok m1
  | SecVal.obj fs =>
      match dGet sec m1 with
      | some (SecVal.obj bf) => Except.ok (dSet sec (SecVal.obj (mFields keep bf fs)) m1)
      | some (SecVal.prim j) => if primErr j fs then Except.error () else Except.ok m1
      | none => Except.ok m1

/-- The outer section loop. -/
def mSections (keep : List (String × JVal) → String → JVal → Bool)
    (primErr : JVal → List (String × JVal) → Bool) :
    LCRec → List (String × SecVal) → Except Unit LCRec
  | merged, [] => Except.ok merged
  | merged, (sec, fields) :: rest =>
      match mSection keep primErr merged sec fields with
      | Except.error e => Except.error e
      | Except.ok m2 => mSections keep primErr m2 rest

/-- `merge_collected_data`'s keep condition (line 241):
`field not in merged[section] or merged[section][field] is None`. -/
def keepCollected (acc : List (String × JVal)) (f : String) (_v : JVal) : Bool :=
  match dGet f acc with
  | none => true
  | some JVal.null => true
  | some _ => false

/-- For `merge_collected_data`, a non-dict base section raises `TypeError`
on the first incoming field (membership test, string indexing, or item
assignment all fail), so exactly a non-empty incoming dict errors. -/
def primErrCollected (_j : JVal) (fs : List (String × JVal)) : Bool :=
  !fs.isEmpty

/-- `_merge_lc_data`'s keep condition (line 204): `field not in
merged[section] or (value is not None and merged[section][field] is None)`. -/
def keepLc (acc : List (String × JVal)) (f : String) (v : JVal) : Bool :=
  match dGet f acc with
  | none => true
  | some cur => if v = JVal.null then false else if cur = JVal.null then true else false

/-- For `_merge_lc_data` on a non-dict base section: a string base skips
fields that are substrings with a `None` value and raises `TypeError` on
any other field; every other non-dict base raises on the first field. -/
def primErrLc (j : JVal) (fs : List (String × JVal)) : Bool :=
  match j with
  | JVal.str s => fs.any (fun p => !(strContains s p.1 && (p.2 = JVal.null)))
  | _ => !fs.isEmpty

/-- `merge_collected_data(provided_fields, collected_fields)`
(`app/utils/vapi_lc_assistant.py`, lines 215-245). -/
def merge_collected_data (provided_fields collected_fields : LCRec) : Except Unit LCRec :=
  mSections keepCollected primErrCollected provided_fields collected_fields

/-- `_merge_lc_data(provided_data, extracted_data)`
(`app/agents/voice_lc_agent.py`, lines 186-208). -/
def _merge_lc_data (provided_data extracted_data : LCRec) : Except Unit LCRec :=
  mSections keepLc primErrLc provided_data extracted_data

end TradeFast

namespace TradeFast

/-! ## Properties of the two keep conditions -/

theorem keepCollected_nonnull {acc : List (String × JVal)} {f : String} {u : JVal}
    (h : dGet f acc = some u) (hu : u ≠ JVal.null) (v : JVal) :
    keepCollected acc f v = false := by
  cases u with
  | null => exact absurd rfl hu
  | str s => simp [keepCollected, h]
  | num n => simp [keepCollected, h]
  | bool b => simp [keepCollected, h]

theorem keepCollected_null {acc : List (String × JVal)} {f : String}
    (h : dGet f acc = some JVal.null) (v : JVal) :
    keepCollected acc f v = true := by
  simp [keepCollected, h]

theorem keepCollected_absent {acc : List (String × JVal)} {f : String}
    (h : dGet f acc = none) (v : JVal) :
    keepCollected acc f v = true := by
  simp [keepCollected, h]

theorem keepLc_nonnull {acc : List (String × JVal)} {f : String} {u : JVal}
    (h : dGet f acc = some u) (hu : u ≠ JVal.null) (v : JVal) :
    keepLc acc f v = false := by
  by_cases hv : v = JVal.null <;> simp [keepLc, h, hv, hu]

theorem keepLc_fill {acc : List (String × JVal)} {f : String} {v : JVal}
    (h : dGet f acc = some JVal.null) (hv : v ≠ JVal.null) :
    keepLc acc f v = true := by
  simp [keepLc, h, hv]

theorem keepLc_absent {acc : List (String × JVal)} {f : String}
    (h : dGet f acc = none) (v : JVal) :
    keepLc acc f v = true := by
  simp [keepLc, h]

/-! ## The inner field loop -/

section FieldLoop

variable {keep : List (String × JVal) → String → JVal → Bool}

theorem mFields_pres_nonnull
    (hk : ∀ acc f v u, dGet f acc = some u → u ≠ JVal.null → keep acc f v = false) :
    ∀ (fs base : List (String × JVal)) (f : String) (u : JVal),
      dGet f base = some u → u ≠ JVal.null → dGet f (mFields keep base fs) = some u := by
  intro fs
  induction fs with
  | nil => intro base f u h _; exact h
  | cons p rest ih =>
      intro base f u h hu
      by_cases hpf : p.1 = f
      · have hkf : keep base p.1 p.2 = false := by
          rw [hpf]
          exact hk base f p.2 u h hu
        simp only [mFields, hkf, Bool.false_eq_true, if_false]
        exact ih base f u h hu
      · cases hkp : keep base p.1 p.2 with
        | false =>
            simp only [mFields, hkp, Bool.false_eq_true, if_false]
            exact ih base f u h hu
        | true =>
            simp only [mFields, hkp, if_true]
            refine ih (dSet p.1 p.2 base) f u ?_ hu
            rw [dGet_dSet_ne p.2 base (fun hh => hpf hh.symm)]
            exact h

theorem mFields_pres_some :
    ∀ (fs base : List (String × JVal)) (f : String),
      (dGet f base).isSome → (dGet f (mFields keep base fs)).isSome := by
  intro fs
  induction fs with
  | nil => intro base f h; exact h
  | cons p rest ih =>
      intro base f h
      cases hkp : keep base p.1 p.2 with
      | false =>
          simp only [mFields, hkp, Bool.false_eq_true, if_false]
          exact ih base f h
      | true =>
          simp only [mFields, hkp, if_true]
          refine ih (dSet p.1 p.2 base) f ?_
          by_cases hpf : p.1 = f
          · rw [← hpf, dGet_dSet_self]
            rfl
          · rw [dGet_dSet_ne p.2 base (fun hh => hpf hh.symm)]
            exact h

theorem mFields_not_mem :
    ∀ (fs base : List (String × JVal)) (f : String),
      (∀ p ∈ fs, p.1 ≠ f) → dGet f (mFields keep base fs) = dGet f base := by
  intro fs
  induction fs with
  | nil => intro base f _; rfl
  | cons p rest ih =>
      intro base f hne
      have hpf : p.1 ≠ f := hne p (List.mem_cons_self p rest)
      have hrest : ∀ q ∈ rest, q.1 ≠ f := fun q hq => hne q (List.mem_cons_of_mem p hq)
      cases hkp : keep base p.1 p.2 with
      | false =>
          simp only [mFields, hkp, Bool.false_eq_true, if_false]
          exact ih base f hrest
      | true =>
          simp only [mFields, hkp, if_true]
          rw [ih (dSet p.1 p.2 base) f hrest,
              dGet_dSet_ne p.2 base (fun hh => hpf hh.symm)]

theorem mFields_fill
    (hk : ∀ acc f v u, dGet f acc = some u → u ≠ JVal.null → keep acc f v = false)
    (hk2 : ∀ acc f v, dGet f acc = some JVal.null → v ≠ JVal.null → keep acc f v = true) :
    ∀ (fs base : List (String × JVal)) (f : String) (w : JVal),
      dGet f base = some JVal.null → dGet f fs = some w → w ≠ JVal.null →
      dGet f (mFields keep base fs) = some w := by
  intro fs
  induction fs with
  | nil => intro base f w _ hfs _; exact absurd hfs (by simp [dGet])
  | cons p rest ih =>
      intro base f w hb hfs hw
      by_cases hpf : p.1 = f
      · have hpw : p.2 = w := by
          have : dGet f (p :: rest) = some p.2 := by simp [dGet, hpf]
          rw [this] at hfs
          exact Option.some.inj hfs
        have hkt : keep base p.1 p.2 = true := by
          rw [hpf, hpw]
          exact hk2 base f w hb hw
        simp only [mFields, hkt, if_true]
        refine mFields_pres_nonnull hk rest (dSet p.1 p.2 base) f w ?_ hw
        rw [hpf, hpw, dGet_dSet_self]
      · have hfs' : dGet f rest = some w := by
          simpa [dGet, hpf] using hfs
        cases hkp : keep base p.1 p.2 with
        | false =>
            simp only [mFields, hkp, Bool.false_eq_true, if_false]
            exact ih base f w hb hfs' hw
        | true =>
            simp only [mFields, hkp, if_true]
            refine ih (dSet p.1 p.2 base) f w ?_ hfs' hw
            rw [dGet_dSet_ne p.2 base (fun hh => hpf hh.symm)]
            exact hb

theorem mFields_add
    (hk3 : ∀ acc f v, dGet f acc = none → keep acc f v = true) :
    ∀ (fs base : List (String × JVal)) (f : String) (w : JVal),
      (fs.map Prod.fst).Nodup → dGet f fs = some w → dGet f base = none →
      dGet f (mFields keep base fs) = some w := by
  intro fs
  induction fs with
  | nil => intro base f w _ hfs _; exact absurd hfs (by simp [dGet])
  | cons p rest ih =>
      intro base f w hnd hfs hb
      have hnd' := hnd
      rw [List.map_cons, List.nodup_cons] at hnd'
      by_cases hpf : p.1 = f
      · have hpw : p.2 = w := by
          have : dGet f (p :: rest) = some p.2 := by simp [dGet, hpf]
          rw [this] at hfs
          exact Option.some.inj hfs
        have hkt : keep base p.1 p.2 = true := by
          rw [hpf]
          exact hk3 base f p.2 hb
        simp only [mFields, hkt, if_true]
        have hrest : ∀ q ∈ rest, q.1 ≠ f := by
          intro q hq hqf
          exact hnd'.1 (hpf ▸ (hqf ▸ List.mem_map_of_mem Prod.fst hq))
        rw [mFields_not_mem rest (dSet p.1 p.2 base) f hrest, hpf, hpw, dGet_dSet_self]
      · have hfs' : dGet f rest = some w := by
          simpa [dGet, hpf] using hfs
        cases hkp : keep base p.1 p.2 with
        | false =>
            simp only [mFields, hkp, Bool.false_eq_true, if_false]
            exact ih base f w hnd'.2 hfs' hb
        | true =>
            simp only [mFields, hkp, if_true]
            refine ih (dSet p.1 p.2 base) f w hnd'.2 hfs' ?_
            rw [dGet_dSet_ne p.2 base (fun hh => hpf hh.symm)]
            exact hb

end FieldLoop

end TradeFast


namespace TradeFast

section FieldLoopMem

variable {keep : List (String × JVal) → String → JVal → Bool}

theorem mFields_mem_isSome
    (hk3 : ∀ acc f v, dGet f acc = none → keep acc f v = true) :
    ∀ (fs base : List (String × JVal)) (f : String) (w : JVal),
      (f, w) ∈ fs → (dGet f (mFields keep base fs)).isSome := by
  intro fs
  induction fs with
  | nil => intro base f w h; exact absurd h (List.not_mem_nil _)
  | cons p rest ih =>
      intro base f w hmem
      rcases List.mem_cons.mp hmem with heq | hrest
      · have hpf : p.1 = f := by rw [← heq]
        have hstep : (dGet f (if keep base p.1 p.2 then dSet p.1 p.2 base else base)).isSome := by
          cases hkp : keep base p.1 p.2 with
          | true =>
              simp only [if_true]
              rw [← hpf, dGet_dSet_self]
              rfl
          | false =>
              cases hcur : dGet f base with
              | none =>
                  have : keep base p.1 p.2 = true := hk3 base p.1 p.2 (by rw [hpf]; exact hcur)
                  rw [this] at hkp
                  cases hkp
              | some u =>
                  simp [hcur]
        simp only [mFields]
        exact mFields_pres_some rest _ f hstep
      · simp only [mFields]
        exact ih _ f w hrest

theorem mFields_mem_nonnull
    (hk : ∀ acc f v u, dGet f acc = some u → u ≠ JVal.null → keep acc f v = false)
    (hk2 : ∀ acc f v, dGet f acc = some JVal.null → v ≠ JVal.null → keep acc f v = true)
    (hk3 : ∀ acc f v, dGet f acc = none → keep acc f v = true) :
    ∀ (fs base : List (String × JVal)) (f : String) (w : JVal),
      (f, w) ∈ fs → w ≠ JVal.null →
      ∃ u, dGet f (mFields keep base fs) = some u ∧ u ≠ JVal.null := by
  intro fs
  induction fs with
  | nil => intro base f w h _; exact absurd h (List.not_mem_nil _)
  | cons p rest ih =>
      intro base f w hmem hw
      rcases List.mem_cons.mp hmem with heq | hrest
      · have hpf : p.1 = f := by rw [← heq]
        have hpw : p.2 = w := by rw [← heq]
        cases hcur : dGet f base with
        | none =>
            have hkt : keep base p.1 p.2 = true := hk3 base p.1 p.2 (by rw [hpf]; exact hcur)
            simp only [mFields, hkt, if_true]
            refine ⟨w, mFields_pres_nonnull hk rest _ f w ?_ hw, hw⟩
            rw [← hpf, ← hpw, dGet_dSet_self]
        | some u =>
            by_cases hun : u = JVal.null
            · have hkt : keep base p.1 p.2 = true := by
                rw [hpf, hpw]
                exact hk2 base f w (hun ▸ hcur) hw
              simp only [mFields, hkt, if_true]
              refine ⟨w, mFields_pres_nonnull hk rest _ f w ?_ hw, hw⟩
              rw [← hpf, ← hpw, dGet_dSet_self]
            · have hkf : keep base p.1 p.2 = false := by
                rw [hpf]
                exact hk base f p.2 u hcur hun
              simp only [mFields, hkf, Bool.false_eq_true, if_false]
              exact ⟨u, mFields_pres_nonnull hk rest base f u hcur hun, hun⟩
      · simp only [mFields]
        exact ih _ f w hrest hw

end FieldLoopMem

/-- The per-pair fact that makes a second pass of the collected-data inner
loop a no-op: every incoming key is present, and can only hold null if that
pair's own value is null. -/
def PFields (d fs : List (String × JVal)) : Prop :=
  ∀ q ∈ fs, ∃ u, dGet q.1 d = some u ∧ (u = JVal.null → q.2 = JVal.null)

section PFieldsLemmas

variable {keep : List (String × JVal) → String → JVal → Bool}

theorem pfields_estab
    (hk : ∀ acc f v u, dGet f acc = some u → u ≠ JVal.null → keep acc f v = false)
    (hk2 : ∀ acc f v, dGet f acc = some JVal.null → v ≠ JVal.null → keep acc f v = true)
    (hk3 : ∀ acc f v, dGet f acc = none → keep acc f v = true)
    (fs base : List (String × JVal)) : PFields (mFields keep base fs) fs := by
  intro q hq
  have h1 := mFields_mem_isSome hk3 fs base q.1 q.2 hq
  obtain ⟨u, hu⟩ := Option.isSome_iff_exists.mp h1
  refine ⟨u, hu, ?_⟩
  intro hun
  by_contra hw
  obtain ⟨u2, hu2, hu2n⟩ := mFields_mem_nonnull hk hk2 hk3 fs base q.1 q.2 hq hw
  rw [hu] at hu2
  have hh : u = u2 := Option.some.inj hu2
  exact hu2n (hh ▸ hun)

theorem pfields_mono
    (hk : ∀ acc f v u, dGet f acc = some u → u ≠ JVal.null → keep acc f v = false)
    (fs2 : List (String × JVal)) {d fs : List (String × JVal)}
    (hP : PFields d fs) : PFields (mFields keep d fs2) fs := by
  intro q hq
  obtain ⟨u, hu, himp⟩ := hP q hq
  by_cases hun : u = JVal.null
  · have h1 : (dGet q.1 (mFields keep d fs2)).isSome :=
      mFields_pres_some fs2 d q.1 (by rw [hu]; rfl)
    obtain ⟨u2, hu2⟩ := Option.isSome_iff_exists.mp h1
    exact ⟨u2, hu2, fun _ => himp hun⟩
  · exact ⟨u, mFields_pres_nonnull hk fs2 d q.1 u hu hun, fun h => absurd h hun⟩

end PFieldsLemmas

theorem pfields_stable :
    ∀ (fs d : List (String × JVal)), PFields d fs → mFields keepCollected d fs = d := by
  intro fs
  induction fs with
  | nil => intro d _; rfl
  | cons p rest ih =>
      intro d hP
      have hrest : PFields d rest := fun q hq => hP q (List.mem_cons_of_mem p hq)
      obtain ⟨u, hu, himp⟩ := hP p (List.mem_cons_self p rest)
      by_cases hun : u = JVal.null
      · have hp2 := himp hun
        have hkt : keepCollected d p.1 p.2 = true := keepCollected_null (hun ▸ hu) p.2
        simp only [mFields, hkt, if_true]
        rw [show dSet p.1 p.2 d = d from by rw [hp2]; exact dSet_id (hun ▸ hu)]
        exact ih d hrest
      · have hkf := keepCollected_nonnull hu hun p.2
        simp only [mFields, hkf, Bool.false_eq_true, if_false]
        exact ih d hrest

end TradeFast

namespace TradeFast

/-! ## Section-level behaviour of one loop iteration -/

/-- The value stored at the processed section after one iteration,
as a function of the value before it. -/
def secRes (keep : List (String × JVal) → String → JVal → Bool)
    (cur : Option SecVal) (fields : SecVal) : Option SecVal :=
  match fields, cur with
  | SecVal.prim _, none => some (SecVal.obj [])
  | SecVal.prim _, some v => some v
  | SecVal.obj fs, none => some (SecVal.obj (mFields keep [] fs))
  | SecVal.obj fs, some (SecVal.obj bf) => some (SecVal.obj (mFields keep bf fs))
  | SecVal.obj _, some (SecVal.prim j) => some (SecVal.prim j)

/-- Whether one iteration raises `TypeError`, as a function of the
section's current value. -/
def errCond (primErr : JVal → List (String × JVal) → Bool)
    (cur : Option SecVal) (fields : SecVal) : Bool :=
  match fields, cur with
  | SecVal.obj fs, some (SecVal.prim j) => primErr j fs
  | _, _ => false

section SectionLemmas

variable {keep : List (String × JVal) → String → JVal → Bool}
variable {primErr : JVal → List (String × JVal) → Bool}

theorem mSection_err_iff (keep2 : List (String × JVal) → String → JVal → Bool)
    (primErr2 : JVal → List (String × JVal) → Bool)
    (m : LCRec) (sec : String) (fields : SecVal) :
    mSection keep2 primErr2 m sec fields = Except.error () ↔
      errCond primErr2 (dGet sec m) fields = true := by
  cases hcur : dGet sec m with
  | none =>
      have hm1 : dGet sec (dSet sec (SecVal.obj []) m) = some (SecVal.obj []) :=
        dGet_dSet_self sec (SecVal.obj []) m
      cases fields with
      | prim j => simp [mSection, hcur, errCond]
      | obj fs => simp [mSection, hcur, hm1, errCond]
  | some sv =>
      cases sv with
      | obj bf =>
          cases fields with
          | prim j => simp [mSection, hcur, errCond]
          | obj fs => simp [mSection, hcur, errCond]
      | prim j =>
          cases fields with
          | prim j2 => simp [mSection, hcur, errCond]
          | obj fs =>
              by_cases he : primErr2 j fs = true <;>
                simp [mSection, hcur, errCond, he]

theorem mSection_ok_sec {m m2 : LCRec} {sec : String} {fields : SecVal}
    (h : mSection keep primErr m sec fields = Except.ok m2) :
    dGet sec m2 = secRes keep (dGet sec m) fields := by
  cases hcur : dGet sec m with
  | none =>
      have hm1 : dGet sec (dSet sec (SecVal.obj []) m) = some (SecVal.obj []) :=
        dGet_dSet_self sec (SecVal.obj []) m
      cases fields with
      | prim j =>
          simp only [mSection, hcur, Option.isSome_none, Bool.false_eq_true, if_false] at h
          cases h
          exact hm1.trans rfl
      | obj fs =>
          simp only [mSection, hcur, Option.isSome_none, Bool.false_eq_true, if_false, hm1] at h
          cases h
          rw [dGet_dSet_self]
          rfl
  | some sv =>
      cases sv with
      | obj bf =>
          cases fields with
          | prim j =>
              simp only [mSection, hcur, Option.isSome_some, if_true] at h
              cases h
              exact hcur.trans rfl
          | obj fs =>
              simp only [mSection, hcur, Option.isSome_some, if_true] at h
              cases h
              rw [dGet_dSet_self]
              rfl
      | prim j =>
          cases fields with
          | prim j2 =>
              simp only [mSection, hcur, Option.isSome_some, if_true] at h
              cases h
              exact hcur.trans rfl
          | obj fs =>
              by_cases he : primErr j fs = true
              · simp [mSection, hcur, he] at h
              · simp only [mSection, hcur, Option.isSome_some, if_true, he,
                  Bool.false_eq_true, if_false] at h
                cases h
                exact hcur.trans rfl

theorem mSection_ok_ne {m m2 : LCRec} {sec : String} {fields : SecVal}
    (h : mSection keep primErr m sec fields = Except.ok m2)
    {s : String} (hne : s ≠ sec) : dGet s m2 = dGet s m := by
  have hset : dGet s (dSet sec (SecVal.obj []) m) = dGet s m :=
    dGet_dSet_ne (SecVal.obj []) m hne
  cases hcur : dGet sec m with
  | none =>
      have hm1 : dGet sec (dSet sec (SecVal.obj []) m) = some (SecVal.obj []) :=
        dGet_dSet_self sec (SecVal.obj []) m
      cases fields with
      | prim j =>
          simp only [mSection, hcur, Option.isSome_none, Bool.false_eq_true, if_false] at h
          cases h
          exact hset
      | obj fs =>
          simp only [mSection, hcur, Option.isSome_none, Bool.false_eq_true, if_false, hm1] at h
          cases h
          rw [dGet_dSet_ne _ _ hne]
          exact hset
  | some sv =>
      cases sv with
      | obj bf =>
          cases fields with
          | prim j =>
              simp only [mSection, hcur, Option.isSome_some, if_true] at h
              cases h
              rfl
          | obj fs =>
              simp only [mSection, hcur, Option.isSome_some, if_true] at h
              cases h
              exact dGet_dSet_ne _ _ hne
      | prim j =>
          cases fields with
          | prim j2 =>
              simp only [mSection, hcur, Option.isSome_some, if_true] at h
              cases h
              rfl
          | obj fs =>
              by_cases he : primErr j fs = true
              · simp [mSection, hcur, he] at h
              · simp only [mSection, hcur, Option.isSome_some, if_true, he,
                  Bool.false_eq_true, if_false] at h
                cases h
                rfl

end SectionLemmas

end TradeFast

namespace TradeFast

theorem secRes_isSome {keep : List (String × JVal) → String → JVal → Bool}
    (cur : Option SecVal) (fields : SecVal) : (secRes keep cur fields).isSome := by
  cases fields <;> cases cur with
  | _ =>
      first
      | rfl
      | (rename_i sv; cases sv <;> rfl)

section OuterLoop

variable {keep : List (String × JVal) → String → JVal → Bool}
variable {primErr : JVal → List (String × JVal) → Bool}

theorem mSection_ok_isSome {m m2 : LCRec} {sec : String} {fields : SecVal}
    (h : mSection keep primErr m sec fields = Except.ok m2)
    {s : String} (hsome : (dGet s m).isSome) : (dGet s m2).isSome := by
  by_cases hs : s = sec
  · subst hs
    rw [mSection_ok_sec h]
    exact secRes_isSome _ _
  · rw [mSection_ok_ne h hs]
    exact hsome

theorem mSections_ok_isSome :
    ∀ (B : List (String × SecVal)) (d m : LCRec) (s : String),
      mSections keep primErr d B = Except.ok m →
      (dGet s d).isSome → (dGet s m).isSome := by
  intro B
  induction B with
  | nil =>
      intro d m s h hsome
      cases h
      exact hsome
  | cons q rest ih =>
      rcases q with ⟨sec, fields⟩
      intro d m s h hsome
      cases hstep : mSection keep primErr d sec fields with
      | error e =>
          simp only [mSections, hstep] at h
          exact Except.noConfusion h
      | ok d2 =>
          simp only [mSections, hstep] at h
          exact ih d2 m s h (mSection_ok_isSome hstep hsome)

theorem mSections_ok_not_mem :
    ∀ (B : List (String × SecVal)) (d m : LCRec) (s : String),
      (∀ q ∈ B, q.1 ≠ s) → mSections keep primErr d B = Except.ok m →
      dGet s m = dGet s d := by
  intro B
  induction B with
  | nil =>
      intro d m s _ h
      cases h
      rfl
  | cons q rest ih =>
      rcases q with ⟨sec, fields⟩
      intro d m s hne h
      cases hstep : mSection keep primErr d sec fields with
      | error e =>
          simp only [mSections, hstep] at h
          exact Except.noConfusion h
      | ok d2 =>
          simp only [mSections, hstep] at h
          have h1 : dGet s d2 = dGet s d :=
            mSection_ok_ne hstep (fun hh => hne (sec, fields) (List.mem_cons_self _ _) hh.symm)
          rw [ih d2 m s (fun q hq => hne q (List.mem_cons_of_mem _ hq)) h, h1]

theorem mSections_pres_nonnull
    (hk : ∀ acc f v u, dGet f acc = some u → u ≠ JVal.null → keep acc f v = false) :
    ∀ (B : List (String × SecVal)) (base m : LCRec) (s f : String)
      (bf : List (String × JVal)) (v : JVal),
      mSections keep primErr base B = Except.ok m →
      dGet s base = some (SecVal.obj bf) → dGet f bf = some v → v ≠ JVal.null →
      ∃ mf, dGet s m = some (SecVal.obj mf) ∧ dGet f mf = some v := by
  intro B
  induction B with
  | nil =>
      intro base m s f bf v h hs hf _
      cases h
      exact ⟨bf, hs, hf⟩
  | cons q rest ih =>
      rcases q with ⟨sec, fields⟩
      intro base m s f bf v h hs hf hv
      cases hstep : mSection keep primErr base sec fields with
      | error e =>
          simp only [mSections, hstep] at h
          exact Except.noConfusion h
      | ok m1 =>
          simp only [mSections, hstep] at h
          by_cases hqs : sec = s
          · subst hqs
            have hsec := mSection_ok_sec hstep
            rw [hs] at hsec
            cases fields with
            | prim j => exact ih m1 m sec f bf v h (hsec.trans rfl) hf hv
            | obj fs =>
                exact ih m1 m sec f _ v h (hsec.trans rfl)
                  (mFields_pres_nonnull hk fs bf f v hf hv) hv
          · have hne := mSection_ok_ne hstep (fun hh => hqs hh.symm)
            exact ih m1 m s f bf v h (hne.trans hs) hf hv

theorem mSections_fill
    (hk : ∀ acc f v u, dGet f acc = some u → u ≠ JVal.null → keep acc f v = false)
    (hk2 : ∀ acc f v, dGet f acc = some JVal.null → v ≠ JVal.null → keep acc f v = true) :
    ∀ (B : List (String × SecVal)) (base m : LCRec) (s f : String)
      (bf fs : List (String × JVal)) (w : JVal),
      mSections keep primErr base B = Except.ok m →
      dGet s base = some (SecVal.obj bf) → dGet f bf = some JVal.null →
      dGet s B = some (SecVal.obj fs) → dGet f fs = some w → w ≠ JVal.null →
      ∃ mf, dGet s m = some (SecVal.obj mf) ∧ dGet f mf = some w := by
  intro B
  induction B with
  | nil =>
      intro base m s f bf fs w _ _ _ hB _ _
      exact absurd hB (by simp [dGet])
  | cons q rest ih =>
      rcases q with ⟨sec, fields⟩
      intro base m s f bf fs w h hs hf hB hw hwn
      cases hstep : mSection keep primErr base sec fields with
      | error e =>
          simp only [mSections, hstep] at h
          exact Except.noConfusion h
      | ok m1 =>
          simp only [mSections, hstep] at h
          by_cases hqs : sec = s
          · subst hqs
            have hfields : fields = SecVal.obj fs := by
              simpa [dGet] using hB
            subst hfields
            have hsec := mSection_ok_sec hstep
            rw [hs] at hsec
            exact mSections_pres_nonnull hk rest m1 m sec f _ w h (hsec.trans rfl)
              (mFields_fill hk hk2 fs bf f w hf hw hwn) hwn
          · have hB' : dGet s rest = some (SecVal.obj fs) := by
              simpa [dGet, hqs] using hB
            have hne := mSection_ok_ne hstep (fun hh => hqs hh.symm)
            exact ih m1 m s f bf fs w h (hne.trans hs) hf hB' hw hwn

theorem mSections_add
    (hk3 : ∀ acc f v, dGet f acc = none → keep acc f v = true) :
    ∀ (B : List (String × SecVal)) (base m : LCRec) (s f : String)
      (bf fs : List (String × JVal)) (w : JVal),
      (B.map Prod.fst).Nodup → (fs.map Prod.fst).Nodup →
      mSections keep primErr base B = Except.ok m →
      dGet s base = some (SecVal.obj bf) → dGet f bf = none →
      dGet s B = some (SecVal.obj fs) → dGet f fs = some w →
      ∃ mf, dGet s m = some (SecVal.obj mf) ∧ dGet f mf = some w := by
  intro B
  induction B with
  | nil =>
      intro base m s f bf fs w _ _ _ _ _ hB _
      exact absurd hB (by simp [dGet])
  | cons q rest ih =>
      rcases q with ⟨sec, fields⟩
      intro base m s f bf fs w hndB hndfs h hs hf hB hw
      have hndB' := hndB
      rw [List.map_cons, List.nodup_cons] at hndB'
      cases hstep : mSection keep primErr base sec fields with
      | error e =>
          simp only [mSections, hstep] at h
          exact Except.noConfusion h
      | ok m1 =>
          simp only [mSections, hstep] at h
          by_cases hqs : sec = s
          · subst hqs
            have hfields : fields = SecVal.obj fs := by
              simpa [dGet] using hB
            subst hfields
            have hsec := mSection_ok_sec hstep
            rw [hs] at hsec
            have hrest : ∀ q ∈ rest, q.1 ≠ sec := by
              intro q hq hq1
              have hmem : q.1 ∈ List.map Prod.fst rest := List.mem_map_of_mem Prod.fst hq
              rw [hq1] at hmem
              exact hndB'.1 hmem
            have hm : dGet sec m = dGet sec m1 := mSections_ok_not_mem rest m1 m sec hrest h
            refine ⟨mFields keep bf fs, ?_, mFields_add hk3 fs bf f w hndfs hw hf⟩
            rw [hm]
            exact hsec.trans rfl
          · have hB' : dGet s rest = some (SecVal.obj fs) := by
              simpa [dGet, hqs] using hB
            have hne := mSection_ok_ne hstep (fun hh => hqs hh.symm)
            exact ih m1 m s f bf fs w hndB'.2 hndfs h (hne.trans hs) hf hB' hw

theorem mSections_prim_section :
    ∀ (B : List (String × SecVal)) (base m : LCRec) (s : String) (j : JVal),
      (B.map Prod.fst).Nodup →
      mSections keep primErr base B = Except.ok m →
      dGet s B = some (SecVal.prim j) →
      (dGet s base = none → dGet s m = some (SecVal.obj [])) ∧
      (∀ sv, dGet s base = some sv → dGet s m = some sv) := by
  intro B
  induction B with
  | nil =>
      intro base m s j _ _ hB
      exact absurd hB (by simp [dGet])
  | cons q rest ih =>
      rcases q with ⟨sec, fields⟩
      intro base m s j hndB h hB
      have hndB' := hndB
      rw [List.map_cons, List.nodup_cons] at hndB'
      cases hstep : mSection keep primErr base sec fields with
      | error e =>
          simp only [mSections, hstep] at h
          exact Except.noConfusion h
      | ok m1 =>
          simp only [mSections, hstep] at h
          by_cases hqs : sec = s
          · subst hqs
            have hfields : fields = SecVal.prim j := by
              simpa [dGet] using hB
            subst hfields
            have hsec := mSection_ok_sec hstep
            have hrest : ∀ q ∈ rest, q.1 ≠ sec := by
              intro q hq hq1
              have hmem : q.1 ∈ List.map Prod.fst rest := List.mem_map_of_mem Prod.fst hq
              rw [hq1] at hmem
              exact hndB'.1 hmem
            have hm : dGet sec m = dGet sec m1 := mSections_ok_not_mem rest m1 m sec hrest h
            constructor
            · intro hnone
              rw [hnone] at hsec
              rw [hm]
              exact hsec.trans rfl
            · intro sv hsv
              rw [hsv] at hsec
              rw [hm]
              exact hsec.trans rfl
          · have hB' : dGet s rest = some (SecVal.prim j) := by
              simpa [dGet, hqs] using hB
            have hne := mSection_ok_ne hstep (fun hh => hqs hh.symm)
            have hih := ih m1 m s j hndB'.2 h hB'
            constructor
            · intro hnone
              exact hih.1 (hne.trans hnone)
            · intro sv hsv
              exact hih.2 sv (hne.trans hsv)

end OuterLoop

end TradeFast

namespace TradeFast

/-! ## Keep-condition property bundles for the two implementations -/

theorem hkNonnullC : ∀ (acc : List (String × JVal)) (f : String) (v u : JVal),
    dGet f acc = some u → u ≠ JVal.null → keepCollected acc f v = false :=
  fun _ _ v _ hh hu => keepCollected_nonnull hh hu v

theorem hkNullC : ∀ (acc : List (String × JVal)) (f : String) (v : JVal),
    dGet f acc = some JVal.null → v ≠ JVal.null → keepCollected acc f v = true :=
  fun _ _ v hh _ => keepCollected_null hh v

theorem hkAbsentC : ∀ (acc : List (String × JVal)) (f : String) (v : JVal),
    dGet f acc = none → keepCollected acc f v = true :=
  fun _ _ v hh => keepCollected_absent hh v

theorem hkNonnullL : ∀ (acc : List (String × JVal)) (f : String) (v u : JVal),
    dGet f acc = some u → u ≠ JVal.null → keepLc acc f v = false :=
  fun _ _ v _ hh hu => keepLc_nonnull hh hu v

theorem hkNullL : ∀ (acc : List (String × JVal)) (f : String) (v : JVal),
    dGet f acc = some JVal.null → v ≠ JVal.null → keepLc acc f v = true :=
  fun _ _ _ hh hv => keepLc_fill hh hv

theorem hkAbsentL : ∀ (acc : List (String × JVal)) (f : String) (v : JVal),
    dGet f acc = none → keepLc acc f v = true :=
  fun _ _ v hh => keepLc_absent hh v

/-- C3: neither merge implementation ever overwrites a non-null base field:
whenever the merge returns a record, every section field that was non-null
in the base keeps exactly its base value, even if the incoming record
carries a different value for it. -/
theorem C3_merge_never_overwrites_nonnull :
    (∀ (base incoming m : LCRec) (s f : String) (bf : List (String × JVal)) (v : JVal),
        merge_collected_data base incoming = Except.ok m →
        dGet s base = some (SecVal.obj bf) → dGet f bf = some v → v ≠ JVal.null →
        ∃ mf, dGet s m = some (SecVal.obj mf) ∧ dGet f mf = some v) ∧
    (∀ (base incoming m : LCRec) (s f : String) (bf : List (String × JVal)) (v : JVal),
        _merge_lc_data base incoming = Except.ok m →
        dGet s base = some (SecVal.obj bf) → dGet f bf = some v → v ≠ JVal.null →
        ∃ mf, dGet s m = some (SecVal.obj mf) ∧ dGet f mf = some v) :=
  ⟨fun base incoming m s f bf v h hs hf hv =>
      mSections_pres_nonnull hkNonnullC incoming base m s f bf v h hs hf hv,
   fun base incoming m s f bf v h hs hf hv =>
      mSections_pres_nonnull hkNonnullL incoming base m s f bf v h hs hf hv⟩

/-- Base record for the merge witnesses: one section with a non-null field. -/
def mBase0 : LCRec := [("a", SecVal.obj [("x", JVal.str "1")])]

/-- Incoming record for the merge witnesses: differing value and a new field. -/
def mInc0 : LCRec := [("a", SecVal.obj [("x", JVal.str "2"), ("y", JVal.str "3")])]

/-- The merged result of `mBase0` and `mInc0` under both implementations. -/
def mMerged0 : LCRec := [("a", SecVal.obj [("x", JVal.str "1"), ("y", JVal.str "3")])]

/-- Witness for C3: the differing incoming "x" does not replace the base "x". -/
theorem C3_merge_never_overwrites_nonnull_witness :
    (∃ mf, dGet "a" mMerged0 = some (SecVal.obj mf) ∧ dGet "x" mf = some (JVal.str "1")) ∧
    (∃ mf, dGet "a" mMerged0 = some (SecVal.obj mf) ∧ dGet "x" mf = some (JVal.str "1")) :=
  ⟨C3_merge_never_overwrites_nonnull.1 mBase0 mInc0 mMerged0 "a" "x"
      [("x", JVal.str "1")] (JVal.str "1") rfl rfl rfl (by decide),
   C3_merge_never_overwrites_nonnull.2 mBase0 mInc0 mMerged0 "a" "x"
      [("x", JVal.str "1")] (JVal.str "1") rfl rfl rfl (by decide)⟩

/-- C4: both merges fill null base fields from non-null incoming values
and add incoming fields entirely absent from the base section (the Nodup
premises state that Python dict keys are unique). -/
theorem C4_merge_fills_nulls_and_adds :
    (∀ (base incoming m : LCRec) (s f : String) (bf fs : List (String × JVal)) (w : JVal),
        merge_collected_data base incoming = Except.ok m →
        dGet s base = some (SecVal.obj bf) → dGet f bf = some JVal.null →
        dGet s incoming = some (SecVal.obj fs) → dGet f fs = some w → w ≠ JVal.null →
        ∃ mf, dGet s m = some (SecVal.obj mf) ∧ dGet f mf = some w) ∧
    (∀ (base incoming m : LCRec) (s f : String) (bf fs : List (String × JVal)) (w : JVal),
        _merge_lc_data base incoming = Except.ok m →
        dGet s base = some (SecVal.obj bf) → dGet f bf = some JVal.null →
        dGet s incoming = some (SecVal.obj fs) → dGet f fs = some w → w ≠ JVal.null →
        ∃ mf, dGet s m = some (SecVal.obj mf) ∧ dGet f mf = some w) ∧
    (∀ (base incoming m : LCRec) (s f : String) (bf fs : List (String × JVal)) (w : JVal),
        (incoming.map Prod.fst).Nodup → (fs.map Prod.fst).Nodup →
        merge_collected_data base incoming = Except.ok m →
        dGet s base = some (SecVal.obj bf) → dGet f bf = none →
        dGet s incoming = some (SecVal.obj fs) → dGet f fs = some w →
        ∃ mf, dGet s m = some (SecVal.obj mf) ∧ dGet f mf = some w) ∧
    (∀ (base incoming m : LCRec) (s f : String) (bf fs : List (String × JVal)) (w : JVal),
        (incoming.map Prod.fst).Nodup → (fs.map Prod.fst).Nodup →
        _merge_lc_data base incoming = Except.ok m →
        dGet s base = some (SecVal.obj bf) → dGet f bf = none →
        dGet s incoming = some (SecVal.obj fs) → dGet f fs = some w →
        ∃ mf, dGet s m = some (SecVal.obj mf) ∧ dGet f mf = some w) :=
  ⟨fun base incoming m s f bf fs w h hs hf hB hw hwn =>
      mSections_fill hkNonnullC hkNullC incoming base m s f bf fs w h hs hf hB hw hwn,
   fun base incoming m s f bf fs w h hs hf hB hw hwn =>
      mSections_fill hkNonnullL hkNullL incoming base m s f bf fs w h hs hf hB hw hwn,
   fun base incoming m s f bf fs w hnd hndfs h hs hf hB hw =>
      mSections_add hkAbsentC incoming base m s f bf fs w hnd hndfs h hs hf hB hw,
   fun base incoming m s f bf fs w hnd hndfs h hs hf hB hw =>
      mSections_add hkAbsentL incoming base m s f bf fs w hnd hndfs h hs hf hB hw⟩

/-- Base for the C4 witness: "x" is null, "y" absent. -/
def c4Base : LCRec := [("a", SecVal.obj [("x", JVal.null)])]

/-- Incoming for the C4 witness: fills "x", adds "y". -/
def c4Inc : LCRec := [("a", SecVal.obj [("x", JVal.str "5"), ("y", JVal.str "6")])]

/-- Merged result of `c4Base` and `c4Inc` under both implementations. -/
def c4Merged : LCRec := [("a", SecVal.obj [("x", JVal.str "5"), ("y", JVal.str "6")])]

/-- Witness for C4: the null "x" is filled with "5" and the absent "y" is
added with "6", in both implementations. -/
theorem C4_merge_fills_nulls_and_adds_witness :
    (∃ mf, dGet "a" c4Merged = some (SecVal.obj mf) ∧ dGet "x" mf = some (JVal.str "5")) ∧
    (∃ mf, dGet "a" c4Merged = some (SecVal.obj mf) ∧ dGet "x" mf = some (JVal.str "5")) ∧
    (∃ mf, dGet "a" c4Merged = some (SecVal.obj mf) ∧ dGet "y" mf = some (JVal.str "6")) ∧
    (∃ mf, dGet "a" c4Merged = some (SecVal.obj mf) ∧ dGet "y" mf = some (JVal.str "6")) :=
  ⟨C4_merge_fills_nulls_and_adds.1 c4Base c4Inc c4Merged "a" "x"
      [("x", JVal.null)] [("x", JVal.str "5"), ("y", JVal.str "6")] (JVal.str "5")
      rfl rfl rfl rfl rfl (by decide),
   C4_merge_fills_nulls_and_adds.2.1 c4Base c4Inc c4Merged "a" "x"
      [("x", JVal.null)] [("x", JVal.str "5"), ("y", JVal.str "6")] (JVal.str "5")
      rfl rfl rfl rfl rfl (by decide),
   C4_merge_fills_nulls_and_adds.2.2.1 c4Base c4Inc c4Merged "a" "y"
      [("x", JVal.null)] [("x", JVal.str "5"), ("y", JVal.str "6")] (JVal.str "6")
      (by decide) (by decide) rfl rfl rfl rfl rfl,
   C4_merge_fills_nulls_and_adds.2.2.2 c4Base c4Inc c4Merged "a" "y"
      [("x", JVal.null)] [("x", JVal.str "5"), ("y", JVal.str "6")] (JVal.str "6")
      (by decide) (by decide) rfl rfl rfl rfl rfl⟩

/-- C10: in both merges, an incoming section whose value is not a dict
contributes nothing: no content of it is copied, the base's value (if any)
survives unchanged, and an absent section materializes as the empty dict
created by `merged[section] = {}`. -/
theorem C10_nondict_incoming_section_ignored :
    (∀ (base incoming m : LCRec) (s : String) (j : JVal),
        (incoming.map Prod.fst).Nodup →
        merge_collected_data base incoming = Except.ok m →
        dGet s incoming = some (SecVal.prim j) →
        (dGet s base = none → dGet s m = some (SecVal.obj [])) ∧
        (∀ sv, dGet s base = some sv → dGet s m = some sv)) ∧
    (∀ (base incoming m : LCRec) (s : String) (j : JVal),
        (incoming.map Prod.fst).Nodup →
        _merge_lc_data base incoming = Except.ok m →
        dGet s incoming = some (SecVal.prim j) →
        (dGet s base = none → dGet s m = some (SecVal.obj [])) ∧
        (∀ sv, dGet s base = some sv → dGet s m = some sv)) :=
  ⟨fun base incoming m s j hnd h hB =>
      mSections_prim_section incoming base m s j hnd h hB,
   fun base incoming m s j hnd h hB =>
      mSections_prim_section incoming base m s j hnd h hB⟩

/-- Incoming record with a bare-string top-level section. -/
def c10Inc : LCRec := [("transaction_role", SecVal.prim (JVal.str "Exporter/Supplier (Beneficiary)"))]

/-- Merged result of the empty base with `c10Inc`. -/
def c10Merged : LCRec := [("transaction_role", SecVal.obj [])]

/-- Witness for C10: merging the string-valued `transaction_role` section
into an empty base yields an empty dict there, in both implementations. -/
theorem C10_nondict_incoming_section_ignored_witness :
    ((dGet "transaction_role" ([] : LCRec) = none →
        dGet "transaction_role" c10Merged = some (SecVal.obj [])) ∧
      (∀ sv, dGet "transaction_role" ([] : LCRec) = some sv →
        dGet "transaction_role" c10Merged = some sv)) ∧
    ((dGet "transaction_role" ([] : LCRec) = none →
        dGet "transaction_role" c10Merged = some (SecVal.obj [])) ∧
      (∀ sv, dGet "transaction_role" ([] : LCRec) = some sv →
        dGet "transaction_role" c10Merged = some sv)) :=
  ⟨C10_nondict_incoming_section_ignored.1 [] c10Inc c10Merged "transaction_role"
      (JVal.str "Exporter/Supplier (Beneficiary)") (by decide) rfl rfl,
   C10_nondict_incoming_section_ignored.2 [] c10Inc c10Merged "transaction_role"
      (JVal.str "Exporter/Supplier (Beneficiary)") (by decide) rfl rfl⟩

end TradeFast

namespace TradeFast

/-! ## Idempotence of `merge_collected_data` -/

/-- Invariant making a second pass over section `sec` with incoming dict
`fs` a no-op for the collected-data merge. -/
def SecInvC (fs : List (String × JVal)) (sec : String) (d : LCRec) : Prop :=
  (∃ mf, dGet sec d = some (SecVal.obj mf) ∧ PFields mf fs) ∨
  (∃ j, dGet sec d = some (SecVal.prim j) ∧ primErrCollected j fs = false)

theorem secInvC_step {fs : List (String × JVal)} {sec : String} {d d2 : LCRec}
    {sec2 : String} {f2 : SecVal}
    (h : mSection keepCollected primErrCollected d sec2 f2 = Except.ok d2)
    (hI : SecInvC fs sec d) : SecInvC fs sec d2 := by
  by_cases hss : sec2 = sec
  · subst hss
    have hsec := mSection_ok_sec h
    rcases hI with ⟨mf, hmf, hP⟩ | ⟨j, hj, hpe⟩
    · rw [hmf] at hsec
      cases f2 with
      | prim j2 => exact Or.inl ⟨mf, hsec.trans rfl, hP⟩
      | obj fs2 => exact Or.inl ⟨_, hsec.trans rfl, pfields_mono hkNonnullC fs2 hP⟩
    · rw [hj] at hsec
      cases f2 with
      | prim j2 => exact Or.inr ⟨j, hsec.trans rfl, hpe⟩
      | obj fs2 => exact Or.inr ⟨j, hsec.trans rfl, hpe⟩
  · have hne := mSection_ok_ne h (fun hh => hss hh.symm)
    rcases hI with ⟨mf, hmf, hP⟩ | ⟨j, hj, hpe⟩
    · exact Or.inl ⟨mf, hne.trans hmf, hP⟩
    · exact Or.inr ⟨j, hne.trans hj, hpe⟩

theorem secInvC_sections :
    ∀ (B : List (String × SecVal)) (d m : LCRec) {fs : List (String × JVal)} {sec : String},
      mSections keepCollected primErrCollected d B = Except.ok m →
      SecInvC fs sec d → SecInvC fs sec m := by
  intro B
  induction B with
  | nil =>
      intro d m fs sec h hI
      cases h
      exact hI
  | cons q rest ih =>
      rcases q with ⟨sec2, f2⟩
      intro d m fs sec h hI
      cases hstep : mSection keepCollected primErrCollected d sec2 f2 with
      | error e =>
          simp only [mSections, hstep] at h
          exact Except.noConfusion h
      | ok d2 =>
          simp only [mSections, hstep] at h
          exact ih d2 m h (secInvC_step hstep hI)

theorem secInvC_estab {A A1 : LCRec} {sec : String} {fs : List (String × JVal)}
    (h : mSection keepCollected primErrCollected A sec (SecVal.obj fs) = Except.ok A1) :
    SecInvC fs sec A1 := by
  have hsec := mSection_ok_sec h
  cases hcur : dGet sec A with
  | none =>
      rw [hcur] at hsec
      exact Or.inl ⟨_, hsec.trans rfl, pfields_estab hkNonnullC hkNullC hkAbsentC fs []⟩
  | some sv =>
      cases sv with
      | obj bf =>
          rw [hcur] at hsec
          exact Or.inl ⟨_, hsec.trans rfl, pfields_estab hkNonnullC hkNullC hkAbsentC fs bf⟩
      | prim j =>
          rw [hcur] at hsec
          have herr : primErrCollected j fs = false := by
            cases he : primErrCollected j fs with
            | false => rfl
            | true =>
                have : mSection keepCollected primErrCollected A sec (SecVal.obj fs) =
                    Except.error () := by
                  rw [mSection_err_iff, hcur]
                  exact he
                rw [this] at h
                exact Except.noConfusion h
          exact Or.inr ⟨j, hsec.trans rfl, herr⟩

theorem mSection_stable_prim {m : LCRec} {sec : String} {j : JVal}
    (h : (dGet sec m).isSome) :
    mSection keepCollected primErrCollected m sec (SecVal.prim j) = Except.ok m := by
  simp [mSection, h]

theorem mSection_stable_obj {m : LCRec} {sec : String} {fs : List (String × JVal)}
    (hI : SecInvC fs sec m) :
    mSection keepCollected primErrCollected m sec (SecVal.obj fs) = Except.ok m := by
  rcases hI with ⟨mf, hmf, hP⟩ | ⟨j, hj, hpe⟩
  · have hstable : mFields keepCollected mf fs = mf := pfields_stable fs mf hP
    have hgoal : mSection keepCollected primErrCollected m sec (SecVal.obj fs) =
        Except.ok (dSet sec (SecVal.obj mf) m) := by
      simp [mSection, hmf, hstable]
    rw [hgoal, dSet_id hmf]
  · have hsome : (dGet sec m).isSome := by rw [hj]; rfl
    simp [mSection, hsome, hj, hpe]

theorem mSections_all_stable :
    ∀ (B : List (String × SecVal)) (A m : LCRec),
      mSections keepCollected primErrCollected A B = Except.ok m →
      ∀ q ∈ B, mSection keepCollected primErrCollected m q.1 q.2 = Except.ok m := by
  intro B
  induction B with
  | nil => intro A m _ q hq; exact absurd hq (List.not_mem_nil _)
  | cons q0 rest ih =>
      rcases q0 with ⟨sec, fields⟩
      intro A m h q hq
      cases hstep : mSection keepCollected primErrCollected A sec fields with
      | error e =>
          simp only [mSections, hstep] at h
          exact Except.noConfusion h
      | ok A1 =>
          simp only [mSections, hstep] at h
          rcases List.mem_cons.mp hq with heq | hrest
          · rw [heq]
            cases fields with
            | prim j =>
                have h1 : (dGet sec A1).isSome := by
                  rw [mSection_ok_sec hstep]
                  exact secRes_isSome _ _
                exact mSection_stable_prim (mSections_ok_isSome rest A1 m sec h h1)
            | obj fs =>
                exact mSection_stable_obj (secInvC_sections rest A1 m h (secInvC_estab hstep))
          · exact ih A1 m h q hrest

theorem mSections_self :
    ∀ (B : List (String × SecVal)) (m : LCRec),
      (∀ q ∈ B, mSection keepCollected primErrCollected m q.1 q.2 = Except.ok m) →
      mSections keepCollected primErrCollected m B = Except.ok m := by
  intro B
  induction B with
  | nil => intro m _; rfl
  | cons q rest ih =>
      rcases q with ⟨sec, fields⟩
      intro m hst
      have h1 : mSection keepCollected primErrCollected m sec fields = Except.ok m :=
        hst (sec, fields) (List.mem_cons_self _ _)
      simp only [mSections, h1]
      exact ih m (fun q hq => hst q (List.mem_cons_of_mem _ hq))

/-- C7: `merge_collected_data` is idempotent: merging the incoming record a
second time into an already-merged record changes nothing (stated with
`bind`, so an erroring merge is unchanged too). -/
theorem C7_merge_collected_idempotent (A B : LCRec) :
    (merge_collected_data A B).bind (fun m => merge_collected_data m B) =
      merge_collected_data A B := by
  cases h : merge_collected_data A B with
  | error e => rfl
  | ok m =>
      have hst := mSections_all_stable B A m h
      have h2 : merge_collected_data m B = Except.ok m := mSections_self B m hst
      simpa [Except.bind] using h2

end TradeFast

namespace TradeFast

/-! ## Order-independence of the section loop -/

/-- Results agree: both error, or both records with the same lookups. -/
def ExtEqE : Except Unit LCRec → Except Unit LCRec → Prop
  | Except.error _, Except.error _ => True
  | Except.ok m, Except.ok n => ∀ s, dGet s m = dGet s n
  | _, _ => False

theorem extEqE_refl (x : Except Unit LCRec) : ExtEqE x x := by
  cases x with
  | error e => trivial
  | ok m => exact fun _ => rfl

theorem extEqE_trans {x y z : Except Unit LCRec}
    (h1 : ExtEqE x y) (h2 : ExtEqE y z) : ExtEqE x z := by
  cases x with
  | error e1 =>
      cases y with
      | error e2 =>
          cases z with
          | error e3 => trivial
          | ok p => exact h2.elim
      | ok n => exact h1.elim
  | ok m =>
      cases y with
      | error e2 => exact h1.elim
      | ok n =>
          cases z with
          | error e3 => exact h2.elim
          | ok p => exact fun s => (h1 s).trans (h2 s)

section PermSection

variable {keep : List (String × JVal) → String → JVal → Bool}
variable {primErr : JVal → List (String × JVal) → Bool}

theorem mSections_congr :
    ∀ (B : List (String × SecVal)) (m1 m2 : LCRec),
      (∀ s, dGet s m1 = dGet s m2) →
      ExtEqE (mSections keep primErr m1 B) (mSections keep primErr m2 B) := by
  intro B
  induction B with
  | nil => intro m1 m2 h; exact h
  | cons q rest ih =>
      rcases q with ⟨sec, fields⟩
      intro m1 m2 h
      have herr : errCond primErr (dGet sec m1) fields =
          errCond primErr (dGet sec m2) fields := by rw [h sec]
      cases h1 : mSection keep primErr m1 sec fields with
      | error e1 =>
          cases e1
          have he1 : errCond primErr (dGet sec m1) fields = true :=
            (mSection_err_iff keep primErr m1 sec fields).mp h1
          have h2 : mSection keep primErr m2 sec fields = Except.error () := by
            rw [mSection_err_iff, ← herr]
            exact he1
          simp only [mSections, h1, h2]
          trivial
      | ok m1pr =>
          have hne1 : errCond primErr (dGet sec m1) fields ≠ true := by
            intro hx
            have hc := (mSection_err_iff keep primErr m1 sec fields).mpr hx
            rw [h1] at hc
            exact Except.noConfusion hc
          have hok2 : ∃ m2pr, mSection keep primErr m2 sec fields = Except.ok m2pr := by
            cases h2 : mSection keep primErr m2 sec fields with
            | error e2 =>
                cases e2
                have hc := (mSection_err_iff keep primErr m2 sec fields).mp h2
                rw [← herr] at hc
                exact absurd hc hne1
            | ok m2pr => exact ⟨m2pr, rfl⟩
          obtain ⟨m2pr, h2⟩ := hok2
          have hpt : ∀ s, dGet s m1pr = dGet s m2pr := by
            intro s
            by_cases hs : s = sec
            · subst hs
              rw [mSection_ok_sec h1, mSection_ok_sec h2, h s]
            · rw [mSection_ok_ne h1 hs, mSection_ok_ne h2 hs, h s]
          simp only [mSections, h1, h2]
          exact ih m1pr m2pr hpt

theorem mSections_swap (a b : String × SecVal) (hab : a.1 ≠ b.1)
    (l : List (String × SecVal)) (m : LCRec) :
    ExtEqE (mSections keep primErr m (a :: b :: l))
      (mSections keep primErr m (b :: a :: l)) := by
  rcases a with ⟨s1, f1⟩
  rcases b with ⟨s2, f2⟩
  have h12 : s1 ≠ s2 := hab
  have h21 : s2 ≠ s1 := fun hh => hab hh.symm
  cases ha : mSection keep primErr m s1 f1 with
  | error e1 =>
      cases e1
      have he1 := (mSection_err_iff keep primErr m s1 f1).mp ha
      cases hb : mSection keep primErr m s2 f2 with
      | error e2 =>
          cases e2
          simp only [mSections, ha, hb]
          trivial
      | ok mb =>
          have hmb : dGet s1 mb = dGet s1 m := mSection_ok_ne hb h12
          have herr2 : mSection keep primErr mb s1 f1 = Except.error () := by
            rw [mSection_err_iff, hmb]
            exact he1
          simp only [mSections, ha, hb, herr2]
          trivial
  | ok ma =>
      cases hb : mSection keep primErr m s2 f2 with
      | error e2 =>
          cases e2
          have he2 := (mSection_err_iff keep primErr m s2 f2).mp hb
          have hma : dGet s2 ma = dGet s2 m := mSection_ok_ne ha h21
          have herr1 : mSection keep primErr ma s2 f2 = Except.error () := by
            rw [mSection_err_iff, hma]
            exact he2
          simp only [mSections, ha, hb, herr1]
          trivial
      | ok mb =>
          have hma2 : dGet s2 ma = dGet s2 m := mSection_ok_ne ha h21
          have hmb1 : dGet s1 mb = dGet s1 m := mSection_ok_ne hb h12
          have hok2 : ∃ mab, mSection keep primErr ma s2 f2 = Except.ok mab := by
            cases hx : mSection keep primErr ma s2 f2 with
            | error e =>
                cases e
                have hc := (mSection_err_iff keep primErr ma s2 f2).mp hx
                rw [hma2] at hc
                have hc2 := (mSection_err_iff keep primErr m s2 f2).mpr hc
                rw [hb] at hc2
                exact Except.noConfusion hc2
            | ok mab => exact ⟨mab, rfl⟩
          have hok1 : ∃ mba, mSection keep primErr mb s1 f1 = Except.ok mba := by
            cases hx : mSection keep primErr mb s1 f1 with
            | error e =>
                cases e
                have hc := (mSection_err_iff keep primErr mb s1 f1).mp hx
                rw [hmb1] at hc
                have hc2 := (mSection_err_iff keep primErr m s1 f1).mpr hc
                rw [ha] at hc2
                exact Except.noConfusion hc2
            | ok mba => exact ⟨mba, rfl⟩
          obtain ⟨mab, hstep2⟩ := hok2
          obtain ⟨mba, hstep1⟩ := hok1
          have hpt : ∀ s, dGet s mab = dGet s mba := by
            intro s
            by_cases hs1 : s = s1
            · subst hs1
              rw [mSection_ok_ne hstep2 h12, mSection_ok_sec ha,
                  mSection_ok_sec hstep1, hmb1]
            · by_cases hs2 : s = s2
              · subst hs2
                rw [mSection_ok_sec hstep2, hma2, mSection_ok_ne hstep1 h21,
                    mSection_ok_sec hb]
              · rw [mSection_ok_ne hstep2 hs2, mSection_ok_ne ha hs1,
                    mSection_ok_ne hstep1 hs1, mSection_ok_ne hb hs2]
          simp only [mSections, ha, hb, hstep2, hstep1]
          exact mSections_congr l mab mba hpt

theorem mSections_perm :
    ∀ {B C : List (String × SecVal)}, B.Perm C → (B.map Prod.fst).Nodup →
      ∀ m, ExtEqE (mSections keep primErr m B) (mSections keep primErr m C) := by
  intro B C hp
  induction hp with
  | nil => intro _ m; exact extEqE_refl _
  | cons x p ih =>
      intro hnd m
      rcases x with ⟨sec, fields⟩
      rw [List.map_cons, List.nodup_cons] at hnd
      cases hstep : mSection keep primErr m sec fields with
      | error e =>
          simp only [mSections, hstep]
          trivial
      | ok m1 =>
          simp only [mSections, hstep]
          exact ih hnd.2 m1
  | swap x y l =>
      intro hnd m
      have hxy : y.1 ≠ x.1 := by
        rw [List.map_cons, List.nodup_cons] at hnd
        intro hh
        exact hnd.1 (by rw [hh, List.map_cons]; exact List.mem_cons_self _ _)
      exact mSections_swap y x hxy l m
  | trans h1 _ ih1 ih2 =>
      intro hnd m
      refine extEqE_trans (ih1 hnd m) (ih2 ?_ m)
      exact ((h1.map Prod.fst).nodup_iff).mp hnd

end PermSection

/-- C8: both merges are pure functions of their two inputs (the embedding
is value-semantic, matching the source's `copy.deepcopy`), and the merged
record does not depend on the order in which the incoming sections are
iterated: permuting the incoming sections (with the unique keys a Python
dict guarantees) gives the same lookups (or the same error). -/
theorem C8_merge_deterministic_order_independent (A B C : LCRec)
    (hp : B.Perm C) (hnd : (B.map Prod.fst).Nodup) :
    ExtEqE (merge_collected_data A B) (merge_collected_data A C) ∧
    ExtEqE (_merge_lc_data A B) (_merge_lc_data A C) :=
  ⟨mSections_perm hp hnd A, mSections_perm hp hnd A⟩

/-- Two-section incoming record for the C8 witness. -/
def c8B : LCRec := [("a", SecVal.obj [("x", JVal.str "1")]), ("b", SecVal.obj [("y", JVal.str "2")])]

/-- The same two sections in the opposite order. -/
def c8C : LCRec := [("b", SecVal.obj [("y", JVal.str "2")]), ("a", SecVal.obj [("x", JVal.str "1")])]

/-- Witness for C8 at a concrete transposition of two sections. -/
theorem C8_merge_deterministic_order_independent_witness :
    ExtEqE (merge_collected_data [] c8B) (merge_collected_data [] c8C) ∧
    ExtEqE (_merge_lc_data [] c8B) (_merge_lc_data [] c8C) :=
  C8_merge_deterministic_order_independent [] c8B c8C
    (List.Perm.swap ("b", SecVal.obj [("y", JVal.str "2")])
      ("a", SecVal.obj [("x", JVal.str "1")]) [])
    (by decide)

end TradeFast
